import Mathlib

/-!
Verification of the Adaptive Selector Resolution Engine
(`vero-agent`: `execution_store.py`, `semantic_search.py`,
`intelligent_selector.py`, `learning_loop.py`, `live_execution_agent.py`).

The Python sources are shallowly embedded: dictionaries become association
lists, SQLite tables become lists of row structures, floating-point scores
become rationals, and `datetime` timestamps become ISO strings compared
lexicographically (which is exactly how SQLite compares the stored TEXT
values for the ASCII timestamps the code writes).
-/

set_option maxRecDepth 100000

namespace Vero

/-! ## String and association-list helpers

Python `s[:n]` slices the first `n` code points; Lean `String.data` is the
code-point list, so slicing is `List.take` on it. -/

/-- Python `s[:n]` (first `n` code points of `s`). -/
def pyTake (s : String) (n : Nat) : String :=
  String.mk (s.data.take n)

/-- Python truthiness of an optional string: `None` and `""` are falsy. -/
def truthy : Option String → Bool
  | none => false
  | some s => !(s == "")

/-- Python truthiness of a plain string. -/
def truthyS (s : String) : Bool := !(s == "")

/-- Python dictionaries with string keys: association lists looked up by
key.  `aget` is `d.get(k)`: the value at the first matching key. -/
def aget {α : Type} (attrs : List (String × α)) (k : String) : Option α :=
  match attrs.find? (fun p => p.1 == k) with
  | some p => some p.2
  | none => none

/-- Python `k in d` for a dictionary. -/
def amem {α : Type} (attrs : List (String × α)) (k : String) : Bool :=
  (aget attrs k).isSome

/-- `d.get(k, default)`. -/
def agetD {α : Type} (attrs : List (String × α)) (k : String) (default : α) : α :=
  (aget attrs k).getD default

/-- Does the character list `p` occur as a contiguous run inside `l`?
(Model of SQL `LIKE '%p%'` after case folding.) -/
def startsWithL : List Char → List Char → Bool
  | [], _ => true
  | _ :: _, [] => false
  | a :: p, b :: l => a == b && startsWithL p l

def containsRun (p l : List Char) : Bool :=
  match l with
  | [] => startsWithL p []
  | _ :: rest => startsWithL p l || containsRun p rest

/-- SQL `a LIKE '%b%'` on ASCII data: case-insensitive containment. -/
def sqlLikeContains (hay needle : String) : Bool :=
  containsRun needle.toLower.data hay.toLower.data

/-! ## MD5 (`hashlib.md5(data.encode()).hexdigest()`)

Both fingerprint functions hash a UTF-8 encoded data string with MD5 and
keep the first 12 hex digits.  MD5 is implemented here over `Nat` with
explicit reduction modulo `2^32`. -/

def w32 (n : Nat) : Nat := n % 4294967296

def rotl32 (x c : Nat) : Nat :=
  w32 ((x <<< c) ||| (x >>> (32 - c)))

def not32 (x : Nat) : Nat := x ^^^ 4294967295

/-- Per-round sine-derived constants `K[i] = ⌊|sin(i+1)|·2^32⌋`. -/
def md5K : List Nat := [
  3614090360, 3905402710, 606105819, 3250441966, 4118548399, 1200080426, 2821735955, 4249261313,
  1770035416, 2336552879, 4294925233, 2304563134, 1804603682, 4254626195, 2792965006, 1236535329,
  4129170786, 3225465664, 643717713, 3921069994, 3593408605, 38016083, 3634488961, 3889429448,
  568446438, 3275163606, 4107603335, 1163531501, 2850285829, 4243563512, 1735328473, 2368359562,
  4294588738, 2272392833, 1839030562, 4259657740, 2763975236, 1272893353, 4139469664, 3200236656,
  681279174, 3936430074, 3572445317, 76029189, 3654602809, 3873151461, 530742520, 3299628645,
  4096336452, 1126891415, 2878612391, 4237533241, 1700485571, 2399980690, 4293915773, 2240044497,
  1873313359, 4264355552, 2734768916, 1309151649, 4149444226, 3174756917, 718787259, 3951481745]

/-- Per-round left-rotation amounts. -/
def md5S : List Nat := [
  7, 12, 17, 22, 7, 12, 17, 22, 7, 12, 17, 22, 7, 12, 17, 22,
  5, 9, 14, 20, 5, 9, 14, 20, 5, 9, 14, 20, 5, 9, 14, 20,
  4, 11, 16, 23, 4, 11, 16, 23, 4, 11, 16, 23, 4, 11, 16, 23,
  6, 10, 15, 21, 6, 10, 15, 21, 6, 10, 15, 21, 6, 10, 15, 21]

structure MD5St where
  a : Nat
  b : Nat
  c : Nat
  d : Nat

/-- One of the 64 MD5 rounds; `m j` is the `j`-th little-endian 32-bit word
of the current 512-bit block. -/
def md5Round (m : List Nat) (st : MD5St) (i : Nat) : MD5St :=
  let fg : Nat × Nat :=
    if i < 16 then ((st.b &&& st.c) ||| (not32 st.b &&& st.d), i)
    else if i < 32 then ((st.d &&& st.b) ||| (not32 st.d &&& st.c), (5 * i + 1) % 16)
    else if i < 48 then (st.b ^^^ st.c ^^^ st.d, (3 * i + 5) % 16)
    else (st.c ^^^ (st.b ||| not32 st.d), (7 * i) % 16)
  let f := w32 (fg.1 + st.a + md5K.getD i 0 + m.getD fg.2 0)
  { a := st.d, b := w32 (st.b + rotl32 f (md5S.getD i 0)), c := st.b, d := st.c }

/-- Little-endian 32-bit words of a 64-byte block. -/
def bytesToWords : List Nat → List Nat
  | b0 :: b1 :: b2 :: b3 :: rest =>
      (b0 + 256 * b1 + 65536 * b2 + 16777216 * b3) :: bytesToWords rest
  | _ => []

def md5Block (st : MD5St) (block : List Nat) : MD5St :=
  let m := bytesToWords block
  let r := (List.range 64).foldl (md5Round m) st
  { a := w32 (st.a + r.a), b := w32 (st.b + r.b), c := w32 (st.c + r.c), d := w32 (st.d + r.d) }

/-- Fold over `n` 64-byte blocks. -/
def md5Blocks : Nat → MD5St → List Nat → MD5St
  | 0, st, _ => st
  | n + 1, st, bs => md5Blocks n (md5Block st (bs.take 64)) (bs.drop 64)

/-- `count` little-endian bytes of `n`. -/
def natLEBytes : Nat → Nat → List Nat
  | 0, _ => []
  | c + 1, n => n % 256 :: natLEBytes c (n / 256)

/-- MD5 padding: `0x80`, zeros to 56 mod 64, then the bit length as a
little-endian 64-bit integer. -/
def md5Pad (msg : List Nat) : List Nat :=
  let len := msg.length
  let zeros := (119 - len % 64) % 64
  msg ++ [128] ++ List.replicate zeros 0 ++ natLEBytes 8 (8 * len)

def md5Init : MD5St := ⟨1732584193, 4023233417, 2562383102, 271733878⟩

def md5Bytes (msg : List Nat) : List Nat :=
  let padded := md5Pad msg
  let st := md5Blocks (padded.length / 64) md5Init padded
  natLEBytes 4 st.a ++ natLEBytes 4 st.b ++ natLEBytes 4 st.c ++ natLEBytes 4 st.d

/-- UTF-8 encoding of one code point (`str.encode()`). -/
def utf8Char (c : Char) : List Nat :=
  let n := c.toNat
  if n < 128 then [n]
  else if n < 2048 then [192 + n / 64, 128 + n % 64]
  else if n < 65536 then [224 + n / 4096, 128 + n / 64 % 64, 128 + n % 64]
  else [240 + n / 262144, 128 + n / 4096 % 64, 128 + n / 64 % 64, 128 + n % 64]

def utf8Bytes (s : String) : List Nat :=
  s.data.foldr (fun c acc => utf8Char c ++ acc) []

def hexDigit (n : Nat) : Char :=
  if n < 10 then Char.ofNat (48 + n) else Char.ofNat (87 + n)

def bytesToHex (bs : List Nat) : List Char :=
  bs.foldr (fun b acc => hexDigit (b / 16) :: hexDigit (b % 16) :: acc) []

/-- `hashlib.md5(s.encode()).hexdigest()`. -/
def md5Hex (s : String) : String :=
  String.mk (bytesToHex (md5Bytes (utf8Bytes s)))

/-- `hashlib.md5(s.encode()).hexdigest()[:12]`, the form both fingerprint
functions use. -/
def md5Hex12 (s : String) : String :=
  pyTake (md5Hex s) 12

/-! ## Element dictionaries

The Python code passes elements around as plain dictionaries.  The keys that
the embedded code reads become optional fields; the attribute sub-dictionary
becomes an association list.  An absent `attributes` key and an empty
dictionary behave identically in the source (`element.get('attributes', {})`),
so both are the empty list here. -/

structure Element where
  /-- `element['tag_name']` / `element.get('tag_name')`. -/
  tag_name : Option String := none
  /-- camel-case fallback key `tagName`. -/
  tagName : Option String := none
  /-- `element.get('text')`. -/
  text : Option String := none
  /-- `element.get('text_content')`. -/
  text_content : Option String := none
  /-- camel-case fallback key `textContent`. -/
  textContent : Option String := none
  /-- `element.get('attributes', {})`. -/
  attributes : List (String × String) := []
  /-- top-level `element.get('label')`. -/
  label : Option String := none
  /-- top-level `element.get('aria-label')`. -/
  ariaLabelTop : Option String := none
  /-- top-level `element.get('role')` (semantic description only). -/
  role : Option String := none
  /-- `element.get('context', '')`. -/
  context : Option String := none
  /-- `element.get('page_title', '')`. -/
  page_title : Option String := none
deriving DecidableEq, Repr

/-- Python `a or b` for two optional strings: `b` unless `a` is truthy. -/
def orTruthy (a b : Option String) : Option String :=
  if truthy a then a else b

/-- Python `s.strip()`. -/
def pyStrip (s : String) : String := s.trim

/-- `s.startswith(p)`. -/
def pyStartsWith (s p : String) : Bool := startsWithL p.data s.data

/-! ## Element fingerprints

Three distinct hash functions exist in the source.  Each builds a data
string and returns `hashlib.md5(data.encode()).hexdigest()[:12]`. -/

/-- The attribute subset of `execution_store.compute_element_hash`. -/
def STABLE_ATTRS : List String :=
  ["data-testid", "data-test-id", "data-test", "id", "name", "aria-label"]

/-- `element.get('text', element.get('text_content', ''))`, the text
lookup shared by both stores. -/
def storeTextOf (e : Element) : String :=
  match e.text with
  | some t => t
  | none => e.text_content.getD ""

/-- The data string of `execution_store.compute_element_hash` (lines
685-697): tag, first 50 characters of `text` (falling back to
`text_content`), then `attr=value:` for each stable attribute *present*
(`if attr in attrs`). -/
def storeHashData (e : Element) : String :=
  let base := (e.tag_name.getD "") ++ ":" ++ pyTake (storeTextOf e) 50 ++ ":"
  STABLE_ATTRS.foldl
    (fun d attr =>
      if amem e.attributes attr then
        d ++ attr ++ "=" ++ agetD e.attributes attr "" ++ ":"
      else d)
    base

/-- `execution_store.compute_element_hash`. -/
def compute_element_hash (e : Element) : String :=
  md5Hex12 (storeHashData e)

/-- The data string of `IntelligentSelectorGenerator._compute_element_hash`
(lines 383-386): `f"{element.get('tag_name')}:{element.get('text','')[:50]}:
{...get('class','')}"`.  `element.get('tag_name')` has no default, so an
absent key renders as the literal `"None"` inside the f-string. -/
def genHashData (e : Element) : String :=
  (match e.tag_name with
    | some t => t
    | none => "None") ++ ":" ++ pyTake (e.text.getD "") 50 ++ ":" ++
    agetD e.attributes "class" ""

/-- `IntelligentSelectorGenerator._compute_element_hash`. -/
def generatorElementHash (e : Element) : String :=
  md5Hex12 (genHashData e)

/-- The data string of `SemanticElementSearch._compute_element_hash` (lines
519-529): five stable attributes (no `data-test`), appended only when the
value is truthy (`if attrs.get(attr)`), with the `tagName` fallback. -/
def semHashData (e : Element) : String :=
  let tag := match e.tag_name with
    | some t => t
    | none => e.tagName.getD ""
  let base := tag ++ ":" ++ pyTake (storeTextOf e) 50 ++ ":"
  ["data-testid", "data-test-id", "id", "name", "aria-label"].foldl
    (fun d attr =>
      if truthy (aget e.attributes attr) then
        d ++ attr ++ "=" ++ agetD e.attributes attr "" ++ ":"
      else d)
    base

/-- `SemanticElementSearch._compute_element_hash`. -/
def semanticElementHash (e : Element) : String :=
  md5Hex12 (semHashData e)

/-! ## Intelligent selector generator (`intelligent_selector.py`)

Dictionary subscripts like `element['tag_name']` raise `KeyError` when the
key is absent; fallible computations therefore live in `Except Unit`. -/

/-- Result of Python code that may raise `KeyError`. -/
abbrev PyRes (α : Type) := Except Unit α

/-- `element['tag_name']`: raises when the key is absent. -/
def getTag (e : Element) : PyRes String :=
  match e.tag_name with
  | some t => Except.ok t
  | none => Except.error ()

inductive SelectorStrategy
  | TEST_ID
  | ROLE_NAME
  | LABEL
  | PLACEHOLDER
  | ALT_TEXT
  | TITLE
  | TEXT
  | CSS_ID
  | CSS_CLASS
  | CSS_ATTR
  | XPATH
deriving DecidableEq, Repr

/-- `strategy.name.lower()` as used by `decide_selector`. -/
def strategyLowerName : SelectorStrategy → String
  | .TEST_ID => "test_id"
  | .ROLE_NAME => "role_name"
  | .LABEL => "label"
  | .PLACEHOLDER => "placeholder"
  | .ALT_TEXT => "alt_text"
  | .TITLE => "title"
  | .TEXT => "text"
  | .CSS_ID => "css_id"
  | .CSS_CLASS => "css_class"
  | .CSS_ATTR => "css_attr"
  | .XPATH => "xpath"

/-- `SelectorCandidate` (dataclass, lines 33-44).  `vero_syntax` in the
source is called `veroDsl` here. -/
structure SelectorCandidate where
  selector : String
  strategy : SelectorStrategy
  playwright_method : String
  veroDsl : String
  score : ℚ
  is_unique : Bool := true
  element_count : Nat := 1
  stability_score : ℚ := 1
  readability_score : ℚ := 1
deriving DecidableEq, Repr

def TEST_ID_ATTRS : List String :=
  ["data-testid", "data-test-id", "data-test", "data-cy", "data-qa"]

/-- The inner dictionary of `role_map` for `input` elements;
`mapping.get(tag_type, 'textbox')`. -/
def inputRoleMap (t : String) : String :=
  if t == "text" then "textbox"
  else if t == "email" then "textbox"
  else if t == "password" then "textbox"
  else if t == "search" then "searchbox"
  else if t == "checkbox" then "checkbox"
  else if t == "radio" then "radio"
  else if t == "submit" then "button"
  else if t == "button" then "button"
  else "textbox"

/-- The flat entries of `role_map`. -/
def tagRoleMap (tag : String) : Option String :=
  aget [("button", "button"), ("a", "link"), ("textarea", "textbox"),
    ("select", "combobox"), ("img", "img"), ("h1", "heading"),
    ("h2", "heading"), ("h3", "heading"), ("nav", "navigation"),
    ("main", "main"), ("dialog", "dialog")] tag

/-- `IntelligentSelectorGenerator._detect_role` (lines 271-312).
`element['tag_name']` is only reached when the explicit `role` attribute is
falsy. -/
def detectRole (e : Element) : PyRes (Option String) :=
  let explicitRole := aget e.attributes "role"
  if truthy explicitRole then Except.ok explicitRole
  else do
    let tag ← getTag e
    let tagType := agetD e.attributes "type" ""
    if tag == "input" then pure (some (inputRoleMap tagType))
    else pure (tagRoleMap tag)

/-- `IntelligentSelectorGenerator._get_accessible_name` (lines 314-335). -/
def getAccessibleName (e : Element) : PyRes (Option String) :=
  let attrs := e.attributes
  if truthy (aget attrs "aria-label") then Except.ok (aget attrs "aria-label")
  else
    let text := pyStrip (e.text.getD "")
    if truthyS text && decide (text.length < 50) then Except.ok (some text)
    else if truthy (aget attrs "title") then Except.ok (aget attrs "title")
    else if truthy (aget attrs "value") then do
      let tag ← getTag e
      if tag == "input" then pure (aget attrs "value") else pure none
    else Except.ok none

/-- `re.match(r'^[a-z]{1,2}\d+', cls)`: one or two lowercase letters
followed by a digit, anchored at the start. -/
def matchMinified : List Char → Bool
  | c0 :: c1 :: rest =>
      c0.isLower && (c1.isDigit ||
        (c1.isLower && (match rest with
          | c2 :: _ => c2.isDigit
          | [] => false)))
  | _ => false

/-- `re.match(r'^MuiA-zA-Z]+-root', cls)`.  The source regex is malformed
(missing `[`), so it matches the literal run `MuiA-zA-Z`, one or more `]`,
then `-root`. -/
def matchMuiBroken (l : List Char) : Bool :=
  if startsWithL "MuiA-zA-Z".data l then
    let rest := l.drop 9
    let brackets := rest.takeWhile (fun c => c == ']')
    decide (brackets.length ≥ 1) && startsWithL "-root".data (rest.drop brackets.length)
  else false

/-- `class_string.split()`: split on whitespace, dropping empty pieces. -/
def pySplitWs (s : String) : List String :=
  (s.split Char.isWhitespace).filter (fun p => p ≠ "")

/-- The `exclude_patterns` test of
`IntelligentSelectorGenerator._extract_meaningful_classes`
(`re.match` anchors each pattern at the start; `r'__'` therefore only
matches a leading `__`). -/
def genClassExcluded (cls : String) : Bool :=
  let l := cls.data
  matchMinified l || pyStartsWith cls "_" ||
    (match l with
      | c :: _ => c.isDigit
      | [] => false) ||
    pyStartsWith cls "css-" || pyStartsWith cls "sc-" ||
    pyStartsWith cls "chakra-" || matchMuiBroken l ||
    pyStartsWith cls "ant-" || pyStartsWith cls "el-" ||
    pyStartsWith cls "__"

def genSemanticKeywords : List String :=
  ["btn", "button", "input", "form", "nav", "header",
   "footer", "menu", "card", "modal", "dialog", "list",
   "item", "link", "title", "content", "container"]

/-- `any(kw in cls.lower() for kw in semantic_keywords)`. -/
def isSemanticClass (keywords : List String) (cls : String) : Bool :=
  keywords.any (fun kw => containsRun kw.data cls.toLower.data)

/-- `IntelligentSelectorGenerator._extract_meaningful_classes` (lines
337-381): length filter, generated-class filter, then semantic classes are
inserted at the front (`meaningful.insert(0, cls)`) and the rest appended;
finally `[:3]`. -/
def extractMeaningfulClasses (class_string : String) : List String :=
  let kept := (pySplitWs class_string).filter
    (fun cls => decide (3 ≤ cls.length) && decide (cls.length ≤ 30) &&
      !genClassExcluded cls)
  (kept.foldl
    (fun acc cls =>
      if isSemanticClass genSemanticKeywords cls then cls :: acc
      else acc ++ [cls])
    []).take 3

/-- Stable insertion into a list sorted by descending key: the new element
goes before the first element whose key is not larger.  Composed below this
reproduces Python's stable `list.sort(key=..., reverse=True)`. -/
def insertDescBy {α : Type} (key : α → ℚ) (c : α) : List α → List α
  | [] => [c]
  | d :: t => if key d ≤ key c then c :: d :: t else d :: insertDescBy key c t

def sortDescBy {α : Type} (key : α → ℚ) : List α → List α
  | [] => []
  | c :: t => insertDescBy key c (sortDescBy key t)

def sortByScoreDesc (l : List SelectorCandidate) : List SelectorCandidate :=
  sortDescBy (fun c => c.score) l

/-- One entry of the nested `selector_history` dictionary
(`{'attempts': _, 'successes': _, 'success_rate': _}`). -/
structure HistEntry where
  attempts : Nat
  successes : Nat
  success_rate : ℚ
deriving DecidableEq, Repr

/-- `selector_history : Dict[element_hash, Dict[selector, HistEntry]]`. -/
abbrev SelectorHistory := List (String × List (String × HistEntry))

/-- Dictionary write `d[k] = v`: replaces the first binding in place or
appends a new one, as Python dicts preserve insertion order. -/
def aset {α : Type} : List (String × α) → String → α → List (String × α)
  | [], k, v => [(k, v)]
  | (k', v') :: t, k, v =>
      if k' == k then (k, v) :: t else (k', v') :: aset t k v

/-- `IntelligentSelectorGenerator.update_history` (lines 426-447). -/
def update_history (hist : SelectorHistory) (element_hash selector : String)
    (success : Bool) : SelectorHistory :=
  let inner := (aget hist element_hash).getD []
  let entry := (aget inner selector).getD ⟨0, 0, 1/2⟩
  let attempts := entry.attempts + 1
  let successes := entry.successes + (if success then 1 else 0)
  let entry' : HistEntry := ⟨attempts, successes, (successes : ℚ) / (attempts : ℚ)⟩
  aset hist element_hash (aset inner selector entry')

/-- Strategy 1 of `generate_selectors`: one candidate per test-id attribute
present in the attribute map (`if attr in element.get('attributes', {})`),
in `TEST_ID_ATTRS` order. -/
def testIdCandidate (e : Element) (attr : String) : List SelectorCandidate :=
  if amem e.attributes attr then
    let value := agetD e.attributes attr ""
    [{ selector := "[" ++ attr ++ "=\"" ++ value ++ "\"]",
       strategy := .TEST_ID,
       playwright_method := "getByTestId(\"" ++ value ++ "\")",
       veroDsl := "testId \"" ++ value ++ "\"",
       score := 0.95, readability_score := 0.9 }]
  else []

/-- Strategy 2: role with accessible name. -/
def roleNameCandidate (role accName : Option String) : List SelectorCandidate :=
  if truthy role && truthy accName then
    let r := role.getD ""
    let n := accName.getD ""
    [{ selector := r ++ "[name=\"" ++ n ++ "\"]",
       strategy := .ROLE_NAME,
       playwright_method := "getByRole(\"" ++ r ++ "\", \x7b name: \"" ++ n ++ "\" \x7d)",
       veroDsl := "role \"" ++ r ++ "\" name \"" ++ n ++ "\"",
       score := 0.90, readability_score := 0.95 }]
  else []

/-- Strategy 3: label for form fields.  `element['tag_name']` is only
evaluated when the label is truthy, by Python's short-circuiting `and`. -/
def labelCandidate (e : Element) : PyRes (List SelectorCandidate) := do
  let lbl := orTruthy e.label e.ariaLabelTop
  if truthy lbl then do
    let tag ← getTag e
    let l := lbl.getD ""
    if ["input", "textarea", "select"].contains tag then
      pure [{ selector := "[aria-label=\"" ++ l ++ "\"]",
              strategy := .LABEL,
              playwright_method := "getByLabel(\"" ++ l ++ "\")",
              veroDsl := "label \"" ++ l ++ "\"",
              score := 0.88, readability_score := 0.95 }]
    else pure []
  else pure []

/-- Strategy 4: placeholder. -/
def placeholderCandidate (e : Element) : List SelectorCandidate :=
  match aget e.attributes "placeholder" with
  | some p =>
    if truthyS p then
      [{ selector := "[placeholder=\"" ++ p ++ "\"]",
         strategy := .PLACEHOLDER,
         playwright_method := "getByPlaceholder(\"" ++ p ++ "\")",
         veroDsl := "placeholder \"" ++ p ++ "\"",
         score := 0.85, readability_score := 0.90 }]
    else []
  | none => []

/-- Strategy 5: alt text for images (`element['tag_name']` evaluated when
`alt` is truthy). -/
def altTextCandidate (e : Element) : PyRes (List SelectorCandidate) := do
  let altv := aget e.attributes "alt"
  if truthy altv then do
    let tag ← getTag e
    let a := altv.getD ""
    if tag == "img" then
      pure [{ selector := "img[alt=\"" ++ a ++ "\"]",
              strategy := .ALT_TEXT,
              playwright_method := "getByAltText(\"" ++ a ++ "\")",
              veroDsl := "altText \"" ++ a ++ "\"",
              score := 0.85, readability_score := 0.90 }]
    else pure []
  else pure []

/-- Strategy 6: title attribute. -/
def titleCandidate (e : Element) : List SelectorCandidate :=
  match aget e.attributes "title" with
  | some ti =>
    if truthyS ti then
      [{ selector := "[title=\"" ++ ti ++ "\"]",
         strategy := .TITLE,
         playwright_method := "getByTitle(\"" ++ ti ++ "\")",
         veroDsl := "title \"" ++ ti ++ "\"",
         score := 0.80, readability_score := 0.85 }]
    else []
  | none => []

/-- Strategy 7: text content, exact for fewer than 30 characters. -/
def textCandidate (e : Element) : List SelectorCandidate :=
  let txt := pyStrip (e.text.getD "")
  if truthyS txt && decide (txt.length < 100) then
    let isExact := decide (txt.length < 30)
    [{ selector := if isExact then "text=\"" ++ txt ++ "\"" else "text=" ++ pyTake txt 30,
       strategy := .TEXT,
       playwright_method := "getByText(\"" ++ txt ++ "\", \x7b exact: " ++
         (if isExact then "true" else "false") ++ " \x7d)",
       veroDsl := "text \"" ++ txt ++ "\"",
       score := if isExact then 0.75 else 0.65,
       readability_score := 0.95 }]
  else []

/-- Strategy 8: id attribute (React-generated ids starting with `:` are
skipped). -/
def cssIdCandidate (e : Element) : List SelectorCandidate :=
  match aget e.attributes "id" with
  | some i =>
    if truthyS i && !pyStartsWith i ":" then
      [{ selector := "#" ++ i,
         strategy := .CSS_ID,
         playwright_method := "locator(\"#" ++ i ++ "\")",
         veroDsl := "css \"#" ++ i ++ "\"",
         score := 0.70, readability_score := 0.80 }]
    else []
  | none => []

/-- Strategy 9: meaningful class names, at most two joined. -/
def cssClassCandidate (e : Element) : List SelectorCandidate :=
  let meaningful := extractMeaningfulClasses (agetD e.attributes "class" "")
  if meaningful ≠ [] then
    let classSelector := "." ++ String.intercalate "." (meaningful.take 2)
    [{ selector := classSelector,
       strategy := .CSS_CLASS,
       playwright_method := "locator(\"" ++ classSelector ++ "\")",
       veroDsl := "css \"" ++ classSelector ++ "\"",
       score := 0.60, readability_score := 0.60 }]
  else []

/-- One iteration of strategy 10 (`for attr in ['name', 'type', 'href']`):
`element['tag_name']` is evaluated when the attribute value is truthy. -/
def attrCandidate (e : Element) (attr : String) : PyRes (List SelectorCandidate) := do
  match aget e.attributes attr with
  | some v =>
    if truthyS v then do
      let tag ← getTag e
      let sel := tag ++ "[" ++ attr ++ "=\"" ++ v ++ "\"]"
      pure [{ selector := sel,
              strategy := .CSS_ATTR,
              playwright_method := "locator('" ++ sel ++ "')",
              veroDsl := "css \"" ++ sel ++ "\"",
              score := 0.55, readability_score := 0.50 }]
    else pure []
  | none => pure []

/-- The candidate list of `generate_selectors` before history blending:
strategies 1-10 in source order (the loops over the five test-id attributes
and the three plain attributes are unrolled). -/
def generateRawCandidates (e : Element) : PyRes (List SelectorCandidate) := do
  let c1 :=
    testIdCandidate e "data-testid" ++ testIdCandidate e "data-test-id" ++
    testIdCandidate e "data-test" ++ testIdCandidate e "data-cy" ++
    testIdCandidate e "data-qa"
  let role ← detectRole e
  let accName ← getAccessibleName e
  let c2 := roleNameCandidate role accName
  let c3 ← labelCandidate e
  let c4 := placeholderCandidate e
  let c5 ← altTextCandidate e
  let c6 := titleCandidate e
  let c7 := textCandidate e
  let c8 := cssIdCandidate e
  let c9 := cssClassCandidate e
  let a1 ← attrCandidate e "name"
  let a2 ← attrCandidate e "type"
  let a3 ← attrCandidate e "href"
  pure (c1 ++ c2 ++ c3 ++ c4 ++ c5 ++ c6 ++ c7 ++ c8 ++ c9 ++ a1 ++ a2 ++ a3)

/-- The history-blending loop body of `generate_selectors` (lines 252-260):
when `selector_history` has an entry for this element hash and this
selector, the stability score becomes the recorded success rate and the
score becomes `0.7·base + 0.3·success_rate`. -/
def blendOne (hist : SelectorHistory) (element_hash : String)
    (c : SelectorCandidate) : SelectorCandidate :=
  match aget hist element_hash with
  | some history =>
    match aget history c.selector with
    | some entry =>
      { c with stability_score := entry.success_rate,
               score := c.score * 0.7 + entry.success_rate * 0.3 }
    | none => c
  | none => c

/-- `IntelligentSelectorGenerator._verify_uniqueness` (lines 388-399),
applied only when page elements are supplied: text and class candidates are
flagged non-unique and penalised by ×0.8. -/
def applyUniqueness (page_elements : Option (List Element))
    (cands : List SelectorCandidate) : List SelectorCandidate :=
  match page_elements with
  | some _ => cands.map (fun c =>
      if c.strategy == .CSS_CLASS || c.strategy == .TEXT then
        { c with is_unique := false, score := c.score * 0.8 }
      else c)
  | none => cands

/-- `IntelligentSelectorGenerator.generate_selectors` (lines 106-269),
parameterised by `selector_history`: assemble the raw candidates, blend
with history keyed by the class-based generator hash, optionally penalise
non-unique strategies, and stably sort by descending score. -/
def generate_selectors (hist : SelectorHistory) (e : Element)
    (page_elements : Option (List Element)) : PyRes (List SelectorCandidate) := do
  let candidates ← generateRawCandidates e
  let blended := candidates.map (blendOne hist (generatorElementHash e))
  pure (sortByScoreDesc (applyUniqueness page_elements blended))

/-! ## Adaptive weights (`semantic_search.AdaptiveElementMatcher`) -/

structure Weights where
  history_match : ℚ
  semantic_similarity : ℚ
  text_match : ℚ
  position_heuristic : ℚ
deriving DecidableEq, Repr

/-- The initial weights of `AdaptiveElementMatcher.__init__` (lines
601-607). -/
def initWeights : Weights :=
  { history_match := 0.4, semantic_similarity := 0.3,
    text_match := 0.2, position_heuristic := 0.1 }

def weightsTotal (w : Weights) : ℚ :=
  w.history_match + w.semantic_similarity + w.text_match + w.position_heuristic

/-- `AdaptiveElementMatcher._adjust_weights` (lines 694-717): the strategy's
weight is nudged by ±0.01 and clamped to [0.1, 0.5], then *all four* weights
are divided by their sum.  Unknown strategies (including `position`) return
early without renormalising. -/
def adjust_weights (strategy : String) (success : Bool) (w : Weights) : Weights :=
  let nudge : ℚ → ℚ := fun v =>
    if success then min 0.5 (v + 0.01) else max 0.1 (v - 0.01)
  let adjusted : Option Weights :=
    if strategy == "history" then some { w with history_match := nudge w.history_match }
    else if strategy == "semantic" then some { w with semantic_similarity := nudge w.semantic_similarity }
    else if strategy == "text" then some { w with text_match := nudge w.text_match }
    else none
  match adjusted with
  | none => w
  | some w' =>
    let total := weightsTotal w'
    { history_match := w'.history_match / total,
      semantic_similarity := w'.semantic_similarity / total,
      text_match := w'.text_match / total,
      position_heuristic := w'.position_heuristic / total }

/-- A feedback event: the strategy string and whether the step succeeded. -/
def applyFeedback (w : Weights) (ev : String × Bool) : Weights :=
  adjust_weights ev.1 ev.2 w

/-! ## Interaction ledger (`execution_store.py`)

SQLite tables become lists of rows; timestamps are the ISO strings the code
writes, compared lexicographically exactly as SQLite compares TEXT.
Columns never read by any modelled query (the JSON `attributes`,
`bounding_box`, `all_selectors_tried` snapshots and the `embedding` blob)
are omitted from the row structures. -/

inductive ExecutionOutcome
  | SUCCESS
  | FAILURE
  | CORRECTED
  | SKIPPED
  | TIMEOUT
deriving DecidableEq, Repr

/-- One row of the `selector_stats` table (schema lines 223-237).  The
schema declares `success_rate REAL DEFAULT 0.5`. -/
structure StatsRow where
  element_hash : String
  selector : String
  strategy : String
  total_attempts : Nat
  successes : Nat
  success_rate : ℚ
  last_used : String
  avg_duration_ms : ℚ
deriving DecidableEq, Repr

/-- One row of the `correction_mappings` table (schema lines 254-268).
Its only uniqueness constraint is the `AUTOINCREMENT` primary key, which
the code never supplies on insert. -/
structure CorrectionRow where
  original_step : String
  original_selector : String
  corrected_selector : String
  correction_text : String
  element_hash : String
  page_url_pattern : String
  times_applied : Nat
  created_at : String
  last_used : String
deriving DecidableEq, Repr

/-- One row of the `interactions` table (schema lines 160-202). -/
structure InteractionRow where
  id : String
  session_id : String
  timestamp : String
  element_hash : String
  tag_name : String
  text_content : String
  selector_used : String
  selector_strategy : String
  page_url : String
  page_title : String
  step_text : String
  action_type : String
  action_value : Option String
  outcome : ExecutionOutcome
  error_message : Option String
  duration_ms : Nat
  retries : Nat
  user_correction : Option String
  corrected_selector : Option String
  confidence_score : ℚ
deriving DecidableEq, Repr

/-- A `sessions` row, reduced to the columns the modelled operations read
(`cleanup_old_data` filters on `started_at`). -/
structure SessionRow where
  id : String
  started_at : String
deriving DecidableEq, Repr

/-- The whole SQLite database.  `page_snapshots` rows are reduced to their
`timestamp` column, the only one the modelled operations read. -/
structure Store where
  sessions : List SessionRow
  interactions : List InteractionRow
  page_snapshots : List String
  selector_stats : List StatsRow
  correction_mappings : List CorrectionRow
deriving DecidableEq, Repr

def Store.empty : Store := ⟨[], [], [], [], []⟩

/-- `ExecutionStore._update_selector_stats` (lines 405-433): an upsert on
the `(element_hash, selector)` primary key.  The INSERT branch does not
mention `success_rate`, so a fresh row gets the schema default `0.5`; the
`ON CONFLICT DO UPDATE` arm reads the pre-update row on every right-hand
side, so the updated rate is `(successes + s) / (total_attempts + 1)`. -/
def updateSelectorStats (element_hash selector strategy : String)
    (success : Bool) (duration_ms : Nat) (now : String) :
    List StatsRow → List StatsRow
  | [] =>
      [{ element_hash := element_hash, selector := selector,
         strategy := strategy, total_attempts := 1,
         successes := if success then 1 else 0,
         success_rate := 1/2,
         last_used := now, avg_duration_ms := (duration_ms : ℚ) }]
  | r :: t =>
      if r.element_hash == element_hash && r.selector == selector then
        let s : Nat := if success then 1 else 0
        { r with
          total_attempts := r.total_attempts + 1,
          successes := r.successes + s,
          success_rate := ((r.successes + s : Nat) : ℚ) / ((r.total_attempts + 1 : Nat) : ℚ),
          last_used := now,
          avg_duration_ms :=
            (r.avg_duration_ms * (r.total_attempts : ℚ) + (duration_ms : ℚ)) /
              ((r.total_attempts + 1 : Nat) : ℚ) } :: t
      else
        r :: updateSelectorStats element_hash selector strategy success duration_ms now t

/-- `ExecutionStore._save_correction_mapping` (lines 435-465).  The SQL says
`INSERT ... ON CONFLICT DO UPDATE SET times_applied = times_applied + 1`,
but `correction_mappings` has no uniqueness constraint the insert could
violate (only an autoincrement id the code never supplies), so the upsert
arm is dead and every call appends a fresh row with `times_applied = 1`.
`urlPat` stands for the `urllib.parse` netloc+path extraction. -/
def saveCorrectionMapping (urlPat : String → String) (now : String)
    (original_step original_selector corrected_selector correction_text
      element_hash page_url : String)
    (t : List CorrectionRow) : List CorrectionRow :=
  t ++ [{ original_step := original_step,
          original_selector := original_selector,
          corrected_selector := corrected_selector,
          correction_text := correction_text,
          element_hash := element_hash,
          page_url_pattern := urlPat page_url,
          times_applied := 1,
          created_at := now, last_used := now }]

/-- `ExecutionStore.record_interaction` (lines 339-403): append the row,
upsert the selector statistic (success means `outcome == SUCCESS`), and
append a correction mapping when both `user_correction` and
`corrected_selector` are truthy. -/
def record_interaction (urlPat : String → String) (now : String)
    (i : InteractionRow) (session_id : String) (st : Store) : Store :=
  { st with
    interactions := st.interactions ++ [{ i with session_id := session_id }],
    selector_stats :=
      updateSelectorStats i.element_hash i.selector_used i.selector_strategy
        (i.outcome == .SUCCESS) i.duration_ms now st.selector_stats,
    correction_mappings :=
      if truthy i.user_correction && truthy i.corrected_selector then
        saveCorrectionMapping urlPat now i.step_text i.selector_used
          (i.corrected_selector.getD "") (i.user_correction.getD "")
          i.element_hash i.page_url st.correction_mappings
      else st.correction_mappings }

/-- `SELECT ... ORDER BY k₁ DESC, ... LIMIT 1` over a list: keep the first
row that is strictly better than the current best.  SQLite does not specify
which of several rows tied on the full sort key is returned; this model
keeps the earliest. -/
def pickBest {α : Type} (better : α → α → Bool) : List α → Option α
  | [] => none
  | r :: t =>
    match pickBest better t with
    | none => some r
    | some b => if better b r then some b else some r

/-- `ExecutionStore.get_best_selector_for_element` (lines 469-485):
`WHERE element_hash = ? AND total_attempts >= 3 ORDER BY success_rate DESC,
total_attempts DESC LIMIT 1`, returning `(selector, success_rate)`. -/
def get_best_selector_for_element (stats : List StatsRow)
    (element_hash : String) : Option (String × ℚ) :=
  let rows := stats.filter
    (fun r => r.element_hash == element_hash && decide (3 ≤ r.total_attempts))
  (pickBest
      (fun a b =>
        decide (b.success_rate < a.success_rate) ||
          (a.success_rate == b.success_rate && decide (b.total_attempts < a.total_attempts)))
      rows).map
    (fun r => (r.selector, r.success_rate))

/-- The dictionary `find_correction_for_step` returns. -/
structure CorrectionHit where
  selector : String
  correction : String
  times_used : Nat
deriving DecidableEq, Repr

/-- `ExecutionStore.find_correction_for_step` (lines 514-549): exact match
on `original_step` ordered by `times_applied DESC, last_used DESC`, then a
fuzzy `LIKE '%step_text[:30]%'` ordered by `times_applied DESC`.  The
`page_url` argument is accepted but never used by either query. -/
def find_correction_for_step (t : List CorrectionRow)
    (step_text page_url : String) : Option CorrectionHit :=
  let _ := page_url
  let exact := t.filter (fun r => r.original_step == step_text)
  let chosen :=
    match pickBest
        (fun a b =>
          decide (b.times_applied < a.times_applied) ||
            (a.times_applied == b.times_applied && decide (b.last_used < a.last_used)))
        exact with
    | some r => some r
    | none =>
      pickBest (fun a b => decide (b.times_applied < a.times_applied))
        (t.filter (fun r => sqlLikeContains r.original_step (pyTake step_text 30)))
  chosen.map (fun r => ⟨r.corrected_selector, r.correction_text, r.times_applied⟩)

/-- `ExecutionStore.cleanup_old_data` (lines 668-681): delete interactions,
page snapshots and sessions strictly older than the cutoff; `selector_stats`
and `correction_mappings` are untouched ("keep selector_stats for
learning").  The cutoff is `datetime.now() - timedelta(days=days)`, so a
0-day window makes it the cleanup instant itself. -/
def cleanup_old_data (cutoff : String) (st : Store) : Store :=
  { st with
    interactions := st.interactions.filter (fun r => !decide (r.timestamp < cutoff)),
    page_snapshots := st.page_snapshots.filter (fun ts => !decide (ts < cutoff)),
    sessions := st.sessions.filter (fun s => !decide (s.started_at < cutoff)) }

/-! ## Semantic similarity index (`semantic_search.SemanticElementSearch`)

The embedding provider is pluggable (`EmbeddingProvider`); the default mock
hashes with SHA-256 and normalises, and production providers call external
services.  Both the provider and the floating-point cosine similarity are
modelled as parameters (`embed`, `cosSim`); theorems that need it assume
`cosSim` is bounded by 1, which Cauchy-Schwarz gives for the real
function. -/

/-- One row of the `element_embeddings` table (schema lines 190-207).  The
serialised `attributes` JSON and the FTS mirror table are never read by the
modelled operations and are omitted. -/
structure EmbRow where
  element_hash : String
  text_content : String
  tag_name : String
  context : String
  page_url : String
  selector : String
  embedding : List ℚ
  success_count : Nat
  failure_count : Nat
  last_used : String
deriving DecidableEq, Repr

/-- `SemanticElementSearch`: the table plus the in-memory FIFO
`_embedding_cache`, reduced to its keys (the cached vectors are never read
by the modelled operations, only key membership is). -/
structure SemIndex where
  rows : List EmbRow
  cache : List String
deriving DecidableEq, Repr

def SemIndex.empty : SemIndex := ⟨[], []⟩

/-- The keyword list of `SemanticElementSearch._extract_semantic_classes`
(lines 286-292). -/
def semSemanticKeywords : List String :=
  ["btn", "button", "input", "form", "nav", "header", "footer",
   "menu", "card", "modal", "dialog", "list", "item", "link",
   "title", "content", "container", "wrapper", "panel", "section",
   "login", "submit", "cancel", "save", "delete", "edit", "add",
   "search", "filter", "sort", "table", "row", "cell", "grid"]

/-- The `exclude_patterns` of `_extract_semantic_classes` in
`semantic_search.py` (lines 294-300): only five patterns, all anchored. -/
def semClassExcluded (cls : String) : Bool :=
  let l := cls.data
  matchMinified l || pyStartsWith cls "_" ||
    (match l with
      | c :: _ => c.isDigit
      | [] => false) ||
    pyStartsWith cls "css-" || pyStartsWith cls "sc-"

/-- `SemanticElementSearch._extract_semantic_classes` (lines 279-311):
unlike the generator's variant, only classes containing a semantic keyword
are kept, in order, truncated to 3. -/
def semExtractSemanticClasses (class_string : String) : List String :=
  ((pySplitWs class_string).filter
    (fun cls => decide (3 ≤ cls.length) && decide (cls.length ≤ 30) &&
      !semClassExcluded cls &&
      isSemanticClass semSemanticKeywords cls)).take 3

/-- `SemanticElementSearch._build_element_description` (lines 225-277). -/
def buildElementDescription (e : Element) : String :=
  let attrs := e.attributes
  let tag := match e.tag_name with
    | some t => t
    | none => e.tagName.getD "element"
  let role := if truthy e.role then e.role.getD "" else agetD attrs "role" ""
  let parts₀ := [if truthyS role then role ++ " " ++ tag else tag]
  let text := match e.text with
    | some t => t
    | none =>
      match e.text_content with
      | some t => t
      | none => e.textContent.getD ""
  let parts₁ := parts₀ ++
    (if truthyS text then ["with text '" ++ pyTake text 100 ++ "'"] else [])
  let parts₂ := ["aria-label", "placeholder", "name", "title", "alt"].foldl
    (fun acc attr =>
      if truthy (aget attrs attr) then
        acc ++ [attr ++ "='" ++ agetD attrs attr "" ++ "'"]
      else acc)
    parts₁
  let parts₃ := ["data-testid", "data-test-id", "data-test", "data-cy"].foldl
    (fun acc attr =>
      if truthy (aget attrs attr) then
        acc ++ ["test-id '" ++ agetD attrs attr "" ++ "'"]
      else acc)
    parts₂
  let className := agetD attrs "class" ""
  let semClasses := semExtractSemanticClasses className
  let parts₄ := parts₃ ++
    (if truthyS className && !semClasses.isEmpty then
      ["class '" ++ String.intercalate " " semClasses ++ "'"]
    else [])
  let ctx := e.context.getD ""
  let parts₅ := parts₄ ++ (if truthyS ctx then ["in " ++ ctx] else [])
  let pt := e.page_title.getD ""
  let parts₆ := parts₅ ++ (if truthyS pt then ["on page '" ++ pt ++ "'"] else [])
  String.intercalate " " parts₆

/-- `SemanticElementSearch.index_element` (lines 313-377): skip entirely on
a cache hit; otherwise upsert the row (`ON CONFLICT(element_hash) DO UPDATE
SET selector, last_used`) and cache the hash, evicting FIFO at 1000. -/
def index_element (embed : String → List ℚ) (now : String) (e : Element)
    (selector page_url : String) (idx : SemIndex) : SemIndex :=
  let h := semanticElementHash e
  if idx.cache.contains h then idx
  else
    let description := buildElementDescription e
    let emb := embed description
    let text_content := match e.text with
      | some t => t
      | none => e.text_content.getD ""
    let tag_name := match e.tag_name with
      | some t => t
      | none => e.tagName.getD ""
    let ctx := e.context.getD ""
    let rows' :=
      if idx.rows.any (fun r => r.element_hash == h) then
        idx.rows.map (fun r =>
          if r.element_hash == h then { r with selector := selector, last_used := now }
          else r)
      else
        idx.rows ++ [{ element_hash := h, text_content := text_content,
                       tag_name := tag_name, context := ctx,
                       page_url := page_url, selector := selector,
                       embedding := emb, success_count := 0,
                       failure_count := 0, last_used := now }]
    let cache' :=
      if 1000 ≤ idx.cache.length then idx.cache.drop 1 ++ [h]
      else idx.cache ++ [h]
    ⟨rows', cache'⟩

/-- `SimilarElement` (dataclass, lines 43-52). -/
structure SimilarElement where
  element_hash : String
  similarity_score : ℚ
  selector : String
  text_content : String
  tag_name : String
  page_url : String
  success_rate : ℚ
deriving DecidableEq, Repr

/-- `SemanticElementSearch.find_similar` (lines 379-450), with
`same_tag_only` left at its default `False` as every modelled caller does:
embed the query description, keep rows whose cosine similarity clears the
threshold, compute `success_rate = successes / (successes + failures)`
(default 0.5 with no outcomes), sort stably by
`0.7·similarity + 0.3·success_rate` descending and truncate. -/
def find_similar (embed : String → List ℚ) (cosSim : List ℚ → List ℚ → ℚ)
    (idx : SemIndex) (e : Element) (top_k : Nat) (min_similarity : ℚ) :
    List SimilarElement :=
  let queryEmbedding := embed (buildElementDescription e)
  let results := idx.rows.filterMap (fun r =>
    let similarity := cosSim queryEmbedding r.embedding
    if min_similarity ≤ similarity then
      let total : Nat := r.success_count + r.failure_count
      let success_rate : ℚ :=
        if 0 < total then (r.success_count : ℚ) / ((total : Nat) : ℚ) else 1/2
      some { element_hash := r.element_hash, similarity_score := similarity,
             selector := r.selector, text_content := r.text_content,
             tag_name := r.tag_name, page_url := r.page_url,
             success_rate := success_rate }
    else none)
  (sortDescBy (fun x => x.similarity_score * 0.7 + x.success_rate * 0.3) results).take top_k

/-- `SemanticElementSearch.record_outcome` (lines 498-517): bump the
success or failure counter of every row with the given hash. -/
def record_outcome (h : String) (success : Bool) (now : String)
    (idx : SemIndex) : SemIndex :=
  { idx with rows := idx.rows.map (fun r =>
      if r.element_hash == h then
        if success then { r with success_count := r.success_count + 1, last_used := now }
        else { r with failure_count := r.failure_count + 1, last_used := now }
      else r) }

/-! ## Decision fusion loop (`learning_loop.LearningLoop`) -/

/-- The fields of `LearningConfig` (lines 49-70) that the modelled
operations read.  `get_best_selector_for_element` hard-codes its own
3-attempt minimum in SQL. -/
structure LearningConfig where
  similarity_threshold : ℚ := 0.7
  success_rate_threshold : ℚ := 0.8
  history_retention_days : Nat := 30
deriving DecidableEq, Repr

/-- `SelectorDecision` (dataclass, lines 73-80). -/
structure SelectorDecision where
  selector : String
  strategy : String
  confidence : ℚ
  source : String
  alternatives : List (String × ℚ)
deriving DecidableEq, Repr

/-- The mutable state a `LearningLoop` owns: the ledger, the similarity
index, the generator's in-memory history and the matcher weights, plus the
current session id. -/
structure LLState where
  store : Store
  semIndex : SemIndex
  genHistory : SelectorHistory
  weights : Weights
  currentSession : Option String
deriving DecidableEq, Repr

def LLState.empty : LLState :=
  ⟨Store.empty, SemIndex.empty, [], initWeights, none⟩

/-- The "generated" decision of `decide_selector` step 5. -/
def generatedDecision (generated_candidates : List SelectorCandidate)
    (best_generated : SelectorCandidate) : SelectorDecision :=
  { selector := best_generated.selector,
    strategy := strategyLowerName best_generated.strategy,
    confidence := best_generated.score, source := "generated",
    alternatives := ((generated_candidates.drop 1).take 3).map
      (fun c => (c.selector, c.score)) }

/-- Steps 3-6 of `LearningLoop.decide_selector` (lines 244-314), reached
when neither the correction short-circuit nor the trusted-history return
fired; `alternatives₁` carries the untrusted historical best, if any.
Python's early `return`s become the explicit branches here. -/
def decideSelectorTail (cfg : LearningConfig) (embed : String → List ℚ)
    (cosSim : List ℚ → List ℚ → ℚ) (st : LLState) (e : Element)
    (alternatives₁ : List (String × ℚ)) : PyRes SelectorDecision :=
  -- 3. semantic search for similar elements
  let similar_elements := find_similar embed cosSim st.semIndex e 3 cfg.similarity_threshold
  let alternatives₂ := alternatives₁ ++ similar_elements.filterMap (fun s =>
    if cfg.success_rate_threshold ≤ s.success_rate then
      some (s.selector, s.similarity_score * s.success_rate)
    else none)
  -- 4. fresh selectors (the only fallible step: `KeyError` propagates)
  match generate_selectors st.genHistory e none with
  | .error u => .error u
  | .ok generated_candidates =>
    -- 5. combine signals
    match generated_candidates with
    | best_generated :: _ =>
      let best : Option SimilarElement × ℚ := similar_elements.foldl
        (fun acc s =>
          let score := s.similarity_score * 0.6 + s.success_rate * 0.4
          if acc.2 < score then (some s, score) else acc)
        (none, 0)
      match best with
      | (some best_semantic, best_semantic_score) =>
        if best_generated.score < best_semantic_score then
          Except.ok
            { selector := best_semantic.selector, strategy := "semantic",
              confidence := best_semantic_score, source := "semantic_match",
              alternatives := (generated_candidates.take 3).map
                (fun c => (c.selector, c.score)) }
        else Except.ok (generatedDecision generated_candidates best_generated)
      | (none, _) =>
        Except.ok (generatedDecision generated_candidates best_generated)
    | [] =>
      -- 6. fall back to the best alternative, else a generic selector
      match pickBest (fun a b => decide (b.2 < a.2)) alternatives₂ with
      | some best_alt =>
        Except.ok
          { selector := best_alt.1, strategy := "fallback",
            confidence := best_alt.2, source := "alternative",
            alternatives := alternatives₂ }
      | none =>
        let tag := match e.tag_name with
          | some t => t
          | none => e.tagName.getD "element"
        let text := pyTake
          (match e.text with
            | some t => t
            | none => e.text_content.getD "") 30
        let fallback :=
          if truthyS text then tag ++ ":has-text(\"" ++ text ++ "\")" else tag
        Except.ok
          { selector := fallback, strategy := "text_fallback",
            confidence := 0.3, source := "fallback", alternatives := [] }

/-- `LearningLoop.decide_selector` (lines 197-314).  `element_context`
carries the element and its page url/title.  Priority: learned correction
(`times_used ≥ 2`), trusted history (`success_rate ≥ threshold`), then the
fused tail above. -/
def decide_selector (cfg : LearningConfig) (embed : String → List ℚ)
    (cosSim : List ℚ → List ℚ → ℚ) (st : LLState) (e : Element)
    (page_url : String) (step_text : String) : PyRes SelectorDecision :=
  let element_hash := compute_element_hash e
  -- 1. previous corrections (`if correction and correction["times_used"] >= 2`)
  let correction := find_correction_for_step st.store.correction_mappings step_text page_url
  let corrDecision : Option SelectorDecision :=
    match correction with
    | some c =>
      if 2 ≤ c.times_used then
        some { selector := c.selector, strategy := "correction",
               confidence := 0.95, source := "learned_correction",
               alternatives := [] }
      else none
    | none => none
  match corrDecision with
  | some d => Except.ok d
  | none =>
    -- 2. historical best for this element
    match get_best_selector_for_element st.store.selector_stats element_hash with
    | some (selector, success_rate) =>
      if cfg.success_rate_threshold ≤ success_rate then
        Except.ok { selector := selector, strategy := "historical",
                    confidence := success_rate, source := "history",
                    alternatives := [] }
      else decideSelectorTail cfg embed cosSim st e [(selector, success_rate)]
    | none => decideSelectorTail cfg embed cosSim st e []

/-- `LearningLoop._record_interaction` (lines 383-450): build the
interaction row, write it to the ledger when a session is active, index the
element and record the outcome in the similarity index (success *or
corrected* counts as success there), and update the generator history under
the store fingerprint (likewise counting corrected as success). -/
def llRecordInteraction (urlPat : String → String) (embed : String → List ℚ)
    (now rowId : String) (st : LLState) (e : Element)
    (page_url page_title selector_used strategy step_text action_type : String)
    (action_value : Option String) (outcome : ExecutionOutcome)
    (error_message : Option String) (duration_ms : Nat) (retries : Nat)
    (user_correction : Option String) : LLState :=
  let element_hash := compute_element_hash e
  let interaction : InteractionRow :=
    { id := rowId, session_id := "", timestamp := now,
      element_hash := element_hash,
      tag_name := (match e.tag_name with
        | some t => t
        | none => e.tagName.getD ""),
      text_content := (match e.text with
        | some t => t
        | none => e.text_content.getD ""),
      selector_used := selector_used, selector_strategy := strategy,
      page_url := page_url, page_title := page_title,
      step_text := step_text, action_type := action_type,
      action_value := action_value, outcome := outcome,
      error_message := error_message, duration_ms := duration_ms,
      retries := retries, user_correction := user_correction,
      corrected_selector :=
        if outcome == .CORRECTED then some selector_used else none,
      confidence_score := 1 }
  let store' := match st.currentSession with
    | some sid => record_interaction urlPat now interaction sid st.store
    | none => st.store
  let sem₁ := index_element embed now e selector_used page_url st.semIndex
  let succ := outcome == .SUCCESS || outcome == .CORRECTED
  let sem₂ := record_outcome element_hash succ now sem₁
  let hist' := update_history st.genHistory element_hash selector_used succ
  { st with store := store', semIndex := sem₂, genHistory := hist' }

/-- `LearningLoop.record_correction` (lines 362-381): a corrected outcome
recorded with the *corrected* selector as `selector_used`. -/
def llRecordCorrection (urlPat : String → String) (embed : String → List ℚ)
    (now rowId : String) (st : LLState) (e : Element)
    (page_url page_title : String) (original_selector corrected_selector
      user_correction step_text action_type : String) : LLState :=
  let _ := original_selector
  llRecordInteraction urlPat embed now rowId st e page_url page_title
    corrected_selector "user_correction" step_text action_type none
    .CORRECTED none 0 0 (some user_correction)

/-! ## Execution state machine (`live_execution_agent.py`)

The step loop of `execute_steps` (lines 265-277) is modelled as a small-step
transition system.  Each loop iteration is: check `_stop_requested` and
break (line 266), await `_pause_event` (line 270), then execute the step.
`pause` clears the event (line 984), `resume` sets it (line 989), and
`request_stop` sets the flag *and* sets the event "to allow loop to exit"
(lines 992-995). -/

inductive ExecPC
  /-- about to evaluate `if self._stop_requested: break` for step `i`. -/
  | checkStop (i : Nat)
  /-- about to `await self._pause_event.wait()` before step `i`. -/
  | gate (i : Nat)
  /-- about to execute step `i`. -/
  | runStep (i : Nat)
  /-- loop exited. -/
  | finished
deriving DecidableEq, Repr

structure AgentSt where
  pc : ExecPC
  stopRequested : Bool
  pauseEventSet : Bool
  executed : List Nat
deriving DecidableEq, Repr

inductive ExecEvent
  /-- the execution coroutine makes progress (a blocked `wait()` is a
  no-op while the event is clear). -/
  | agentStep
  /-- `pause()`. -/
  | pause
  /-- `resume()`. -/
  | resume
  /-- `request_stop()`. -/
  | requestStop
deriving DecidableEq, Repr

def execStep (total : Nat) (s : AgentSt) : ExecEvent → AgentSt
  | .agentStep =>
    match s.pc with
    | .checkStop i =>
      if s.stopRequested then { s with pc := .finished }
      else { s with pc := .gate i }
    | .gate i =>
      if s.pauseEventSet then { s with pc := .runStep i } else s
    | .runStep i =>
      { s with executed := s.executed ++ [i],
               pc := if i + 1 < total then .checkStop (i + 1) else .finished }
    | .finished => s
  | .pause => { s with pauseEventSet := false }
  | .resume => { s with pauseEventSet := true }
  | .requestStop => { s with stopRequested := true, pauseEventSet := true }

/-- `execute_steps` enters the loop with the stop flag freshly cleared
(line 263) and the pause event set (constructor, line 157). -/
def initAgent : AgentSt := ⟨.checkStop 0, false, true, []⟩

def runTrace (total : Nat) (evs : List ExecEvent) : AgentSt :=
  evs.foldl (execStep total) initAgent

/-! ## Auxiliary definitions used by the theorems -/

/-- The `selector_stats` row for a `(fingerprint, selector)` key (the
SQLite primary-key lookup). -/
def getStats (t : List StatsRow) (element_hash selector : String) : Option StatsRow :=
  t.find? (fun r => r.element_hash == element_hash && r.selector == selector)

/-- One `_update_selector_stats` call's arguments. -/
structure StatsUpd where
  element_hash : String
  selector : String
  strategy : String
  success : Bool
  duration_ms : Nat
  now : String
deriving DecidableEq, Repr

def applyStatsUpd (t : List StatsRow) (u : StatsUpd) : List StatsRow :=
  updateSelectorStats u.element_hash u.selector u.strategy u.success
    u.duration_ms u.now t

def foldStats (l : List StatsUpd) (t : List StatsRow) : List StatsRow :=
  l.foldl applyStatsUpd t

/-- Does an update target the given `(fingerprint, selector)` key? -/
def updMatches (element_hash selector : String) (u : StatsUpd) : Bool :=
  u.element_hash == element_hash && u.selector == selector

/-- `decide_selector` returned normally with a usable decision: a
non-empty selector and a confidence within [0, 1]. -/
def DecisionOK : PyRes SelectorDecision → Prop
  | .ok d => d.selector ≠ "" ∧ 0 ≤ d.confidence ∧ d.confidence ≤ 1
  | .error _ => False

/-- The scenario element of the spec: a Login button carrying a test id. -/
def loginButtonElement : Element :=
  { tag_name := some "button", text := some "Login",
    attributes := [("data-testid", "login-btn")] }

/-- A trivial stand-in for the pluggable embedding provider, used to
instantiate closed theorems. -/
def embedNull : String → List ℚ := fun _ => []

/-- A trivial stand-in for the floating-point cosine similarity (bounded
by 1, as the real one is). -/
def cosSimNull : List ℚ → List ℚ → ℚ := fun _ _ => 0

/-- What the `selector_stats` row for a key must look like after `n`
matching updates, `s` of them successful. -/
def RowSpec (o : Option StatsRow) (n s : Nat) : Prop :=
  match o with
  | none => n = 0 ∧ s = 0
  | some r =>
      r.total_attempts = n ∧ r.successes = s ∧ s ≤ n ∧ 1 ≤ n ∧
      (n = 1 → r.success_rate = 1/2) ∧
      (2 ≤ n → r.success_rate = (s : ℚ) / (n : ℚ))

/-- The inductive invariant of the adaptive weights: all positive, summing
to 1. -/
def WeightsInv (w : Weights) : Prop :=
  0 < w.history_match ∧ 0 < w.semantic_similarity ∧
  0 < w.text_match ∧ 0 < w.position_heuristic ∧ weightsTotal w = 1

/-- The provable normalisation property of the adaptive weights: they sum
to 1 and each lies strictly between 0 and 1. -/
def WeightsNormalized (w : Weights) : Prop :=
  weightsTotal w = 1 ∧
  (0 < w.history_match ∧ w.history_match < 1) ∧
  (0 < w.semantic_similarity ∧ w.semantic_similarity < 1) ∧
  (0 < w.text_match ∧ w.text_match < 1) ∧
  (0 < w.position_heuristic ∧ w.position_heuristic < 1)

/-- A representative interaction row, used to instantiate closed
theorems. -/
def sampleInteraction (ts : String) (outcome : ExecutionOutcome) : InteractionRow :=
  { id := "i1", session_id := "s1", timestamp := ts, element_hash := "h",
    tag_name := "button", text_content := "Login", selector_used := "#b",
    selector_strategy := "css", page_url := "https://ex.com/p",
    page_title := "Ex", step_text := "Click Login", action_type := "click",
    action_value := none, outcome := outcome, error_message := none,
    duration_ms := 100, retries := 0, user_correction := none,
    corrected_selector := none, confidence_score := 1 }

/-- A small populated store whose records all predate 2025. -/
def sampleStore : Store :=
  { sessions := [⟨"s1", "2024-01-01T00:00:00"⟩],
    interactions := [sampleInteraction "2024-03-01T10:00:00" .SUCCESS],
    page_snapshots := ["2024-03-01T10:00:01"],
    selector_stats := [⟨"h", "#b", "css", 1, 1, 1, "2024-03-01T10:00:00", 100⟩],
    correction_mappings := [] }

/-- Three statistic updates on one key: success, failure, success. -/
def c3updates : List StatsUpd :=
  [⟨"h", "s", "st", true, 100, "t1"⟩,
   ⟨"h", "s", "st", false, 50, "t2"⟩,
   ⟨"h", "s", "st", true, 10, "t3"⟩]

/-- The row those three updates produce. -/
def c3statsRow : StatsRow := ⟨"h", "s", "st", 3, 2, 2/3, "t3", 160/3⟩

/-- Two elements identical except for a generated class name. -/
def c4e1 : Element :=
  { tag_name := some "button", text := some "Login",
    attributes := [("class", "css-a1b2c3")] }

def c4e2 : Element :=
  { tag_name := some "button", text := some "Login",
    attributes := [("class", "css-d4e5f6")] }

/-- An input element whose attribute map will be permuted. -/
def c4perm : Element :=
  { tag_name := some "input", attributes := [("id", "u"), ("name", "user")] }

/-- What holds of every raw candidate `generate_selectors` assembles: the
dataclass-default stability score 1, a base score within [0, 1], and a
non-empty selector string. -/
def RawCandProp (c : SelectorCandidate) : Prop :=
  c.stability_score = 1 ∧ 0 ≤ c.score ∧ c.score ≤ 1 ∧ c.selector ≠ ""

/-- A concrete candidate and history used to instantiate the blend
theorem. -/
def c6cand : SelectorCandidate :=
  { selector := "#login", strategy := .CSS_ID,
    playwright_method := "locator(\"#login\")", veroDsl := "css \"#login\"",
    score := 0.70, readability_score := 0.80 }

def c6hist : SelectorHistory :=
  [("k", [("#login", ⟨4, 2, 1/2⟩)])]

/-- A fresh learning-loop state with an active session. -/
def sessionState : LLState :=
  { LLState.empty with currentSession := some "s1" }

/-- The state after recording the *same* user correction twice for the
step "Click Login" (corrected selector `#signin`), starting from a fresh
store. -/
def c1state : LLState :=
  llRecordCorrection id embedNull "2025-01-01T00:00:01" "i2"
    (llRecordCorrection id embedNull "2025-01-01T00:00:00" "i1"
      sessionState loginButtonElement "https://ex.com/login" "Login"
      "#login" "#signin" "click the Sign In button" "Click Login" "click")
    loginButtonElement "https://ex.com/login" "Login"
    "#login" "#signin" "click the Sign In button" "Click Login" "click"

/-- The (attempts, successes) pair a `selector_stats` row records,
`(0, 0)` when the row is absent. -/
def statsCounts (o : Option StatsRow) : Nat × Nat :=
  match o with
  | none => (0, 0)
  | some r => (r.total_attempts, r.successes)

/-- The (attempts, successes) pair the generator's in-memory
`selector_history` records for a key, `(0, 0)` when absent. -/
def histCounts (hist : SelectorHistory) (element_hash selector : String) :
    Nat × Nat :=
  let entry := (aget ((aget hist element_hash).getD []) selector).getD ⟨0, 0, 1/2⟩
  (entry.attempts, entry.successes)

/-- The three-way divergence a `corrected` outcome causes when recorded:
the ledger statistic gains an attempt but no success, the generator
history gains both an attempt and a success, and the similarity index
increments the success counter (never the failure counter) of every row
carrying the interaction's fingerprint. -/
def C9Div (urlPat : String → String) (embed : String → List ℚ)
    (now rowId : String) (st : LLState) (e : Element)
    (page_url page_title selector strategy step_text action_type : String) :
    Prop :=
  let h := compute_element_hash e
  let st' := llRecordInteraction urlPat embed now rowId st e page_url
    page_title selector strategy step_text action_type none .CORRECTED
    none 0 0 none
  statsCounts (getStats st'.store.selector_stats h selector)
      = ((statsCounts (getStats st.store.selector_stats h selector)).1 + 1,
         (statsCounts (getStats st.store.selector_stats h selector)).2) ∧
  histCounts st'.genHistory h selector
      = ((histCounts st.genHistory h selector).1 + 1,
         (histCounts st.genHistory h selector).2 + 1) ∧
  st'.semIndex.rows
      = (index_element embed now e selector page_url st.semIndex).rows.map
          (fun r => if r.element_hash == h then
              { r with success_count := r.success_count + 1, last_used := now }
            else r)

/-! # Theorems -/

/-! ### MD5 reference vectors -/

example : md5Hex "" = "d41d8cd98f00b204e9800998ecf8427e" := by decide
example : md5Hex "abc" = "900150983cd24fb0d6963f7d28e17f72" := by decide
example : md5Hex "button:Login:data-testid=login-btn:" =
    "4cd21d25f54c9a1cc6ca8c2c2d277f36" := by decide

/-! ### C7 -/

/-- C7: for the element `{tag_name: "button", text: "Login", attributes:
{data-testid: "login-btn"}}` with no history, `generate_selectors` returns
the test-id candidate `[data-testid="login-btn"]` first, with score exactly
0.95 (hence at least 0.95); the full ranking is test-id 0.95, role+name
0.90, exact text 0.75. -/
theorem C7_top_candidate_is_test_id :
    (generate_selectors [] loginButtonElement none).map
      (fun l => l.map (fun c => (c.selector, c.strategy, c.score)))
    = Except.ok
      [("[data-testid=\"login-btn\"]", SelectorStrategy.TEST_ID, (0.95 : ℚ)),
       ("button[name=\"Login\"]", SelectorStrategy.ROLE_NAME, (0.90 : ℚ)),
       ("text=\"Login\"", SelectorStrategy.TEXT, (0.75 : ℚ))] := by
  with_unfolding_all rfl

/-! ### C5 -/

/-- C5 (code bug): pausing blocks the run at the pause gate before step 1
(`executed = [0]`), but because the loop checks `_stop_requested` *before*
`await self._pause_event.wait()`, a `request_stop()` issued while paused
wakes the gate **past** this iteration's stop check: the pending step 1 is
executed before the loop terminates (`executed = [0, 1]`).  The claim (and
spec) require the run to terminate without executing any further step. -/
theorem C5_stop_while_paused_executes_pending_step :
    (runTrace 2 [.agentStep, .agentStep, .agentStep, .pause, .agentStep]
      = { pc := .gate 1, stopRequested := false, pauseEventSet := false,
          executed := [0] })
    ∧ (runTrace 2 [.agentStep, .agentStep, .agentStep, .pause, .agentStep,
        .requestStop, .agentStep, .agentStep]
      = { pc := .finished, stopRequested := true, pauseEventSet := true,
          executed := [0, 1] }) := by
  decide

/-! ### C6 -/

/-- C6 counterexample: with no historical observation at all, every
candidate generated for the Login button has `stability_score = 1` (the
dataclass default `stability_score: float = 1.0`), not the claimed default
0.5. -/
theorem C6_counterexample_default_stability_is_one :
    (generate_selectors [] loginButtonElement none).map
      (fun l => l.map (fun c => c.stability_score))
      = Except.ok [1, 1, 1]
    ∧ (1 : ℚ) ≠ 1/2 := by
  constructor
  · with_unfolding_all rfl
  · norm_num

/-! ### C2 -/

/-- C2 counterexample: a single successful "history" feedback event nudges
`history_match` to 0.41, and renormalising by the new total 1.01 drags
`position_heuristic` to 10/101 < 0.1, violating the claimed [0.1, 0.5]
bound. -/
theorem C2_counterexample_weight_leaves_bounds :
    ([("history", true)].foldl applyFeedback initWeights).position_heuristic
        = 10 / 101
    ∧ ¬((1 : ℚ)/10 ≤ ([("history", true)].foldl applyFeedback initWeights).position_heuristic) := by
  have h : ([("history", true)].foldl applyFeedback initWeights).position_heuristic
      = 10 / 101 := by with_unfolding_all rfl
  exact ⟨h, by rw [h]; norm_num⟩

lemma weightsInv_applyFeedback (w : Weights) (ev : String × Bool)
    (h : WeightsInv w) : WeightsInv (applyFeedback w ev) := by
  obtain ⟨h1, h2, h3, h4, hsum⟩ := h
  rcases ev with ⟨strategy, success⟩
  unfold applyFeedback adjust_weights
  simp only
  have hpos : ∀ v : ℚ, 0 < v →
      0 < (if success then min 0.5 (v + 0.01) else max 0.1 (v - 0.01)) := by
    intro v hv
    rcases success with _ | _
    · simp only [Bool.false_eq_true, if_false]
      exact lt_max_of_lt_left (by norm_num)
    · simp only [if_true]
      exact lt_min (by norm_num) (by linarith)
  have key : ∀ w' : Weights,
      0 < w'.history_match → 0 < w'.semantic_similarity →
      0 < w'.text_match → 0 < w'.position_heuristic →
      WeightsInv
        { history_match := w'.history_match / weightsTotal w',
          semantic_similarity := w'.semantic_similarity / weightsTotal w',
          text_match := w'.text_match / weightsTotal w',
          position_heuristic := w'.position_heuristic / weightsTotal w' } := by
    intro w' p1 p2 p3 p4
    have hT : 0 < weightsTotal w' := by
      unfold weightsTotal; linarith
    refine ⟨div_pos p1 hT, div_pos p2 hT, div_pos p3 hT, div_pos p4 hT, ?_⟩
    show w'.history_match / weightsTotal w' + w'.semantic_similarity / weightsTotal w' +
      w'.text_match / weightsTotal w' + w'.position_heuristic / weightsTotal w' = 1
    rw [div_add_div_same, div_add_div_same, div_add_div_same]
    exact div_self (ne_of_gt hT)
  by_cases hh : strategy == "history"
  · simp only [hh, if_true]
    exact key
      { w with history_match :=
          if success = true then min 0.5 (w.history_match + 0.01)
          else max 0.1 (w.history_match - 0.01) }
      (hpos _ h1) h2 h3 h4
  · simp only [hh, Bool.false_eq_true, if_false]
    by_cases hs : strategy == "semantic"
    · simp only [hs, if_true]
      exact key
        { w with semantic_similarity :=
            if success = true then min 0.5 (w.semantic_similarity + 0.01)
            else max 0.1 (w.semantic_similarity - 0.01) }
        h1 (hpos _ h2) h3 h4
    · simp only [hs, Bool.false_eq_true, if_false]
      by_cases ht : strategy == "text"
      · simp only [ht, if_true]
        exact key
          { w with text_match :=
              if success = true then min 0.5 (w.text_match + 0.01)
              else max 0.1 (w.text_match - 0.01) }
          h1 h2 (hpos _ h3) h4
      · simp only [ht, Bool.false_eq_true, if_false]
        exact ⟨h1, h2, h3, h4, hsum⟩

lemma weightsInv_foldl (evs : List (String × Bool)) (w : Weights)
    (h : WeightsInv w) : WeightsInv (evs.foldl applyFeedback w) := by
  induction evs generalizing w with
  | nil => exact h
  | cons ev rest ih => exact ih _ (weightsInv_applyFeedback w ev h)

/-- C2 (amended): the four adaptive weights start at {0.4, 0.3, 0.2, 0.1}
and, after *any* sequence of feedback events, still sum to 1 with every
weight strictly between 0 and 1.  The claimed [0.1, 0.5] bounds hold only
for the directly nudged weight before renormalisation; dividing by the new
total can push the others slightly outside (see the counterexample). -/
theorem C2_weights_sum_one_and_positive (evs : List (String × Bool)) :
    WeightsNormalized (evs.foldl applyFeedback initWeights) := by
  have hinit : WeightsInv initWeights := by
    refine ⟨by norm_num [initWeights], by norm_num [initWeights],
      by norm_num [initWeights], by norm_num [initWeights], ?_⟩
    norm_num [initWeights, weightsTotal]
  have h := weightsInv_foldl evs initWeights hinit
  obtain ⟨h1, h2, h3, h4, hsum⟩ := h
  unfold weightsTotal at hsum
  refine ⟨?_, ⟨h1, ?_⟩, ⟨h2, ?_⟩, ⟨h3, ?_⟩, ⟨h4, ?_⟩⟩
  · unfold weightsTotal; linarith
  all_goals linarith

/-- C2 witness: the invariant instantiated at a concrete one-event
sequence. -/
theorem C2_weights_witness :
    WeightsNormalized ([("semantic", false)].foldl applyFeedback initWeights) :=
  C2_weights_sum_one_and_positive [("semantic", false)]

/-! ### C8 -/

/-- C8: retention cleanup with a 0-day window (cutoff = the cleanup
instant) removes every interaction recorded before it, and leaves the
aggregated `selector_stats` rows exactly as they were. -/
theorem C8_cleanup_preserves_stats (st : Store) (now : String)
    (h : ∀ r ∈ st.interactions, r.timestamp < now) :
    (cleanup_old_data now st).interactions = [] ∧
    (cleanup_old_data now st).selector_stats = st.selector_stats := by
  constructor
  · show st.interactions.filter (fun r => !decide (r.timestamp < now)) = []
    rw [List.filter_eq_nil_iff]
    intro r hr
    simpa using h r hr
  · rfl

/-- C8 witness: cleanup of a concrete populated store. -/
theorem C8_cleanup_witness :
    (cleanup_old_data "2025-06-01T00:00:00" sampleStore).interactions = [] ∧
    (cleanup_old_data "2025-06-01T00:00:00" sampleStore).selector_stats
      = sampleStore.selector_stats :=
  C8_cleanup_preserves_stats sampleStore "2025-06-01T00:00:00"
    (by intro r hr; simp only [sampleStore, List.mem_singleton] at hr
        subst hr; exact of_decide_eq_true (by with_unfolding_all rfl))

/-! ### C4 -/

lemma aget_mem {α : Type} {l : List (String × α)} {k : String} {v : α}
    (h : aget l k = some v) : (k, v) ∈ l := by
  unfold aget at h
  cases hf : l.find? (fun p => p.1 == k) with
  | none => rw [hf] at h; cases h
  | some q =>
    rw [hf] at h
    have hq := List.find?_some hf
    have hm := List.mem_of_find?_eq_some hf
    obtain ⟨q1, q2⟩ := q
    simp only [Option.some.injEq] at h
    simp only [beq_iff_eq] at hq
    subst hq
    subst h
    exact hm

lemma aget_eq_none_iff {α : Type} {l : List (String × α)} {k : String} :
    aget l k = none ↔ ∀ v, (k, v) ∉ l := by
  unfold aget
  cases hf : l.find? (fun p => p.1 == k) with
  | none =>
    constructor
    · intro _ v hv
      have := List.find?_eq_none.mp hf (k, v) hv
      simp at this
    · intro _
      rfl
  | some q =>
    constructor
    · intro h
      simp at h
    · intro hall
      have hq := List.find?_some hf
      have hm := List.mem_of_find?_eq_some hf
      obtain ⟨q1, q2⟩ := q
      simp only [beq_iff_eq] at hq
      subst hq
      exact absurd hm (hall q2)

lemma aget_eq_some_of_nodup {α : Type} {l : List (String × α)} {k : String}
    {v : α} (hnd : (l.map Prod.fst).Nodup) (h : (k, v) ∈ l) :
    aget l k = some v := by
  induction l with
  | nil => simp at h
  | cons q t ih =>
    obtain ⟨q1, q2⟩ := q
    rcases List.mem_cons.mp h with heq | ht
    · rw [Prod.ext_iff] at heq
      obtain ⟨h1, h2⟩ := heq
      simp only at h1 h2
      subst h1
      subst h2
      simp [aget, List.find?]
    · have hk : (q1 == k) = false := by
        refine beq_eq_false_iff_ne.mpr ?_
        intro hkk
        subst hkk
        exact (List.nodup_cons.mp hnd).1
          (List.mem_map.mpr ⟨(q1, v), ht, rfl⟩)
      have ht' := ih (List.nodup_cons.mp hnd).2 ht
      unfold aget at ht' ⊢
      rw [List.find?_cons_of_neg _ (by simp [hk])]
      exact ht'

lemma aget_perm {α : Type} {l₁ l₂ : List (String × α)} (hp : l₁.Perm l₂)
    (hnd : (l₁.map Prod.fst).Nodup) (k : String) :
    aget l₁ k = aget l₂ k := by
  cases h1 : aget l₁ k with
  | none =>
    symm
    rw [aget_eq_none_iff]
    intro v hv
    exact (aget_eq_none_iff.mp h1 v) (hp.symm.subset hv)
  | some v =>
    symm
    exact aget_eq_some_of_nodup ((hp.map Prod.fst).nodup hnd)
      (hp.subset (aget_mem h1))

lemma storeHashData_congr (e₁ e₂ : Element)
    (htag : e₁.tag_name = e₂.tag_name)
    (htxt : pyTake (storeTextOf e₁) 50 = pyTake (storeTextOf e₂) 50)
    (hattrs : ∀ a ∈ STABLE_ATTRS, aget e₁.attributes a = aget e₂.attributes a) :
    storeHashData e₁ = storeHashData e₂ := by
  have h1 := hattrs "data-testid" (by simp [STABLE_ATTRS])
  have h2 := hattrs "data-test-id" (by simp [STABLE_ATTRS])
  have h3 := hattrs "data-test" (by simp [STABLE_ATTRS])
  have h4 := hattrs "id" (by simp [STABLE_ATTRS])
  have h5 := hattrs "name" (by simp [STABLE_ATTRS])
  have h6 := hattrs "aria-label" (by simp [STABLE_ATTRS])
  unfold storeHashData
  simp only [STABLE_ATTRS, List.foldl_cons, List.foldl_nil, amem, agetD]
  rw [htag, htxt, h1, h2, h3, h4, h5, h6]

/-- C4 counterexample: the two elements of `c4e1`/`c4e2` agree on tag,
text, and every attribute of the stable subset (neither has any), and
differ only in a generated class name; yet the selector generator's
fingerprint `_compute_element_hash` — one of the two fingerprint functions
the claim covers — changes, because it hashes the raw `class` attribute. -/
theorem C4_counterexample_class_changes_generator_hash :
    c4e1.tag_name = c4e2.tag_name ∧ c4e1.text = c4e2.text ∧
    (∀ a ∈ STABLE_ATTRS, aget c4e1.attributes a = aget c4e2.attributes a) ∧
    generatorElementHash c4e1 ≠ generatorElementHash c4e2 := by
  refine ⟨rfl, rfl, by decide, ?_⟩
  have h1 : generatorElementHash c4e1 = "a0f73fd29e89" := by
    with_unfolding_all rfl
  have h2 : generatorElementHash c4e2 = "d6ecd5f58b4d" := by
    with_unfolding_all rfl
  rw [h1, h2]
  decide

/-- C4 (amended): the claim holds in full for the ledger fingerprint
`execution_store.compute_element_hash`: it depends only on the tag name,
the first 50 characters of the text, and the six stable attributes, and is
insensitive to the insertion order of a duplicate-free attribute map.  The
selector generator's internal `_compute_element_hash`, by contrast, depends
only on the tag name, the first 50 characters of `text` and the raw `class`
attribute, so a generated class name *does* change that one (and no stable
attribute affects it). -/
theorem C4_fingerprint_dependencies :
    (∀ e₁ e₂ : Element, e₁.tag_name = e₂.tag_name →
      pyTake (storeTextOf e₁) 50 = pyTake (storeTextOf e₂) 50 →
      (∀ a ∈ STABLE_ATTRS, aget e₁.attributes a = aget e₂.attributes a) →
      compute_element_hash e₁ = compute_element_hash e₂) ∧
    (∀ (e : Element) (attrs' : List (String × String)),
      e.attributes.Perm attrs' → (e.attributes.map Prod.fst).Nodup →
      compute_element_hash e = compute_element_hash { e with attributes := attrs' }) ∧
    (∀ e₁ e₂ : Element, e₁.tag_name = e₂.tag_name →
      pyTake (e₁.text.getD "") 50 = pyTake (e₂.text.getD "") 50 →
      agetD e₁.attributes "class" "" = agetD e₂.attributes "class" "" →
      generatorElementHash e₁ = generatorElementHash e₂) := by
  refine ⟨?_, ?_, ?_⟩
  · intro e₁ e₂ htag htxt hattrs
    unfold compute_element_hash
    rw [storeHashData_congr e₁ e₂ htag htxt hattrs]
  · intro e attrs' hp hnd
    unfold compute_element_hash
    rw [storeHashData_congr e { e with attributes := attrs' } rfl rfl
      (fun a _ => aget_perm hp hnd a)]
  · intro e₁ e₂ htag htxt hcls
    unfold generatorElementHash genHashData
    rw [htag, htxt, hcls]

/-- C4 witness: the amended theorem applied to a concrete element whose
two attributes are permuted. -/
theorem C4_fingerprint_witness :
    compute_element_hash c4perm
      = compute_element_hash { c4perm with attributes := [("name", "user"), ("id", "u")] } :=
  C4_fingerprint_dependencies.2.1 c4perm [("name", "user"), ("id", "u")]
    (List.Perm.swap ("name", "user") ("id", "u") [])
    (by decide)

/-! ### C3 -/

lemma getStats_update_other (eh sel eh' sel' strat : String) (succ : Bool)
    (dur : Nat) (now : String) (t : List StatsRow)
    (h : ¬(eh' = eh ∧ sel' = sel)) :
    getStats (updateSelectorStats eh' sel' strat succ dur now t) eh sel
      = getStats t eh sel := by
  have hkey : (eh' == eh && sel' == sel) = false := by
    by_cases h1 : eh' = eh
    · have h2 : sel' ≠ sel := fun h2 => h ⟨h1, h2⟩
      simp [h1, h2]
    · simp [h1]
  induction t with
  | nil =>
    simp [updateSelectorStats, getStats, List.find?, hkey]
  | cons r t ih =>
    by_cases hr : (r.element_hash == eh' && r.selector == sel') = true
    · have hrk : (r.element_hash == eh && r.selector == sel) = false := by
        simp only [Bool.and_eq_true, beq_iff_eq] at hr
        obtain ⟨hre, hrs⟩ := hr
        subst hre
        subst hrs
        exact hkey
      simp only [updateSelectorStats, hr, if_true]
      simp [getStats, List.find?, hrk]
    · simp only [updateSelectorStats, hr, if_false]
      by_cases hk : (r.element_hash == eh && r.selector == sel) = true
      · simp [getStats, List.find?, hk]
      · simp only [Bool.not_eq_true] at hk
        simp only [getStats, List.find?, hk]
        exact ih

lemma getStats_update_self (eh sel strat : String) (succ : Bool) (dur : Nat)
    (now : String) (t : List StatsRow) :
    getStats (updateSelectorStats eh sel strat succ dur now t) eh sel
      = some (match getStats t eh sel with
        | none =>
          { element_hash := eh, selector := sel, strategy := strat,
            total_attempts := 1, successes := if succ then 1 else 0,
            success_rate := 1/2, last_used := now,
            avg_duration_ms := (dur : ℚ) }
        | some r =>
          { r with
            total_attempts := r.total_attempts + 1,
            successes := r.successes + (if succ then 1 else 0),
            success_rate :=
              ((r.successes + (if succ then 1 else 0) : Nat) : ℚ) /
                ((r.total_attempts + 1 : Nat) : ℚ),
            last_used := now,
            avg_duration_ms :=
              (r.avg_duration_ms * (r.total_attempts : ℚ) + (dur : ℚ)) /
                ((r.total_attempts + 1 : Nat) : ℚ) }) := by
  induction t with
  | nil =>
    simp [updateSelectorStats, getStats, List.find?]
  | cons r t ih =>
    by_cases hr : (r.element_hash == eh && r.selector == sel) = true
    · simp only [updateSelectorStats, hr, if_true]
      simp [getStats, List.find?, hr]
    · simp only [Bool.not_eq_true] at hr
      simp only [updateSelectorStats, hr, if_false]
      simp only [getStats, List.find?, hr] at ih ⊢
      exact ih

lemma rowSpec_step (eh sel : String) (u : StatsUpd) (t : List StatsRow)
    (n s : Nat) (h : RowSpec (getStats t eh sel) n s) :
    RowSpec (getStats (applyStatsUpd t u) eh sel)
      (n + if updMatches eh sel u then 1 else 0)
      (s + if updMatches eh sel u && u.success then 1 else 0) := by
  by_cases hm : updMatches eh sel u = true
  · have hmk : u.element_hash = eh ∧ u.selector = sel := by
      simpa [updMatches] using hm
    obtain ⟨h1, h2⟩ := hmk
    unfold applyStatsUpd
    rw [h1, h2, getStats_update_self]
    cases hprev : getStats t eh sel with
    | none =>
      rw [hprev] at h
      obtain ⟨hn, hs⟩ := h
      subst hn
      subst hs
      simp only [RowSpec, hm, if_true]
      refine ⟨trivial, by cases u.success <;> simp, by cases u.success <;> simp,
        by omega, fun _ => trivial, by intro habs; omega⟩
    | some r =>
      rw [hprev] at h
      obtain ⟨htot, hsucc, hsn, hn1, _, _⟩ := h
      simp only [RowSpec, hm, if_true]
      subst htot
      subst hsucc
      refine ⟨rfl, by cases u.success <;> simp,
        by cases u.success <;> simp <;> omega, by omega,
        by intro habs; omega, by intro _; cases u.success <;> simp⟩
  · simp only [Bool.not_eq_true] at hm
    have hne : ¬(u.element_hash = eh ∧ u.selector = sel) := by
      intro ⟨h1, h2⟩
      simp [updMatches, h1, h2] at hm
    unfold applyStatsUpd
    rw [getStats_update_other _ _ _ _ _ _ _ _ _ hne]
    simpa [hm] using h

lemma rowSpec_fold (eh sel : String) (l : List StatsUpd) (t : List StatsRow)
    (n s : Nat) (h : RowSpec (getStats t eh sel) n s) :
    RowSpec (getStats (foldStats l t) eh sel)
      (n + (l.filter (updMatches eh sel)).length)
      (s + (l.filter (fun u => updMatches eh sel u && u.success)).length) := by
  induction l generalizing t n s with
  | nil => simpa [foldStats] using h
  | cons u rest ih =>
    have hstep := rowSpec_step eh sel u t n s h
    have := ih (applyStatsUpd t u)
      (n + if updMatches eh sel u then 1 else 0)
      (s + if updMatches eh sel u && u.success then 1 else 0) hstep
    have harr : ∀ b : Bool, ∀ (xs : List StatsUpd) (p : StatsUpd → Bool) (m : Nat),
        m + (if b then 1 else 0) + (xs.filter p).length
          = m + ((if b then 1 else 0) + (xs.filter p).length) := by
      intro b xs p m
      omega
    simp only [foldStats, List.foldl_cons] at this ⊢
    by_cases hm : updMatches eh sel u = true
    · by_cases hs : u.success = true
      · simpa [hm, hs, List.filter_cons, Nat.add_assoc, Nat.add_comm,
          Nat.add_left_comm] using this
      · simp only [Bool.not_eq_true] at hs
        simpa [hm, hs, List.filter_cons, Nat.add_assoc, Nat.add_comm,
          Nat.add_left_comm] using this
    · simp only [Bool.not_eq_true] at hm
      simpa [hm, List.filter_cons] using this

/-- C3 counterexample: one recorded interaction with outcome `failure`
leaves the stored statistic at `total_attempts = 1`, `successes = 0` but
`success_rate = 0.5`: the INSERT arm of the upsert never writes
`success_rate`, so the first interaction keeps the schema default instead
of the claimed `S/N = 0`. -/
theorem C3_counterexample_first_rate_is_half :
    ((record_interaction id "2025-01-01T00:00:00"
        (sampleInteraction "2025-01-01T00:00:00" .FAILURE) "s1"
        Store.empty).selector_stats.map
      (fun r => (r.total_attempts, r.successes, r.success_rate)))
      = [(1, 0, 1/2)]
    ∧ ((1 : ℚ)/2 ≠ (0 : ℚ) / (1 : ℚ)) := by
  constructor
  · with_unfolding_all rfl
  · norm_num

/-- C3 (amended): for every `(fingerprint, selector)` key, after any
sequence of statistic updates of which `N` target the key (`S` of them
successes), the stored row has `total_attempts = N`, `successes = S`, and a
`success_rate` that always lies in [0, 1] and equals `S/N` (exactly, in
this rational model) for every `N ≥ 2`; after the first update it is the
schema default 1/2 regardless of the outcome, not `S/1`. -/
theorem C3_stats_after_n_updates (l : List StatsUpd) (eh sel : String)
    (r : StatsRow) (hr : getStats (foldStats l []) eh sel = some r) :
    r.total_attempts = (l.filter (updMatches eh sel)).length ∧
    r.successes = (l.filter (fun u => updMatches eh sel u && u.success)).length ∧
    0 ≤ r.success_rate ∧ r.success_rate ≤ 1 ∧
    (2 ≤ (l.filter (updMatches eh sel)).length →
      r.success_rate
        = ((l.filter (fun u => updMatches eh sel u && u.success)).length : ℚ) /
          ((l.filter (updMatches eh sel)).length : ℚ)) ∧
    ((l.filter (updMatches eh sel)).length = 1 → r.success_rate = 1/2) := by
  have h0 : RowSpec (getStats ([] : List StatsRow) eh sel) 0 0 := by
    simp [RowSpec, getStats]
  have h := rowSpec_fold eh sel l [] 0 0 h0
  rw [hr] at h
  simp only [RowSpec, Nat.zero_add] at h
  obtain ⟨htot, hsucc, hsn, hn1, hone, htwo⟩ := h
  refine ⟨htot, hsucc, ?_, ?_, htwo, hone⟩
  · rcases Nat.lt_or_ge (l.filter (updMatches eh sel)).length 2 with hlt | hge
    · have : (l.filter (updMatches eh sel)).length = 1 := by omega
      rw [hone this]
      norm_num
    · rw [htwo hge]
      positivity
  · rcases Nat.lt_or_ge (l.filter (updMatches eh sel)).length 2 with hlt | hge
    · have : (l.filter (updMatches eh sel)).length = 1 := by omega
      rw [hone this]
      norm_num
    · rw [htwo hge]
      apply div_le_one_of_le₀
      · exact_mod_cast hsn
      · positivity

/-- C3 witness: three updates (success, failure, success) on one key give
`total_attempts = 3`, `successes = 2`, `success_rate = 2/3`. -/
theorem C3_stats_witness :
    getStats (foldStats c3updates []) "h" "s" = some c3statsRow ∧
    c3statsRow.total_attempts = (c3updates.filter (updMatches "h" "s")).length ∧
    c3statsRow.success_rate
      = ((c3updates.filter (fun u => updMatches "h" "s" u && u.success)).length : ℚ) /
        ((c3updates.filter (updMatches "h" "s")).length : ℚ) := by
  have hr : getStats (foldStats c3updates []) "h" "s" = some c3statsRow := by
    with_unfolding_all rfl
  have h := C3_stats_after_n_updates c3updates "h" "s" c3statsRow hr
  exact ⟨hr, h.1, h.2.2.2.2.1 (by rw [← h.1]; decide)⟩

/-! ### Candidate generation: raw candidate properties -/

lemma str_length_pos (s : String) (h : s ≠ "") : 0 < s.length := by
  obtain ⟨l⟩ := s
  cases l with
  | nil => exact absurd rfl h
  | cons c cs => simp [String.length]

lemma str_append_ne_left (s t : String) (h : s ≠ "") : s ++ t ≠ "" := by
  intro he
  have h1 := str_length_pos s h
  have h2 : (s ++ t).length = 0 := by rw [he]; rfl
  rw [String.length_append] at h2
  omega

lemma str_append_ne_right (s t : String) (h : t ≠ "") : s ++ t ≠ "" := by
  intro he
  have h1 := str_length_pos t h
  have h2 : (s ++ t).length = 0 := by rw [he]; rfl
  rw [String.length_append] at h2
  omega

lemma getD_ne_of_truthy {o : Option String} (h : truthy o = true) :
    o.getD "" ≠ "" := by
  cases o with
  | none => simp [truthy] at h
  | some s =>
    simp only [truthy, Bool.not_eq_eq_eq_not, Bool.not_true, beq_eq_false_iff_ne] at h
    simpa using h

lemma pyBind_ok {α β : Type} (a : α) (f : α → PyRes β) :
    (Except.ok a : PyRes α) >>= f = f a := rfl

lemma pyBind_error {α β : Type} (u : Unit) (f : α → PyRes β) :
    (Except.error u : PyRes α) >>= f = Except.error u := rfl

lemma pyMap_ok {α β : Type} (a : α) (f : α → β) :
    f <$> (Except.ok a : PyRes α) = Except.ok (f a) := rfl

lemma pyMap_error {α β : Type} (u : Unit) (f : α → β) :
    f <$> (Except.error u : PyRes α) = Except.error u := rfl

lemma mem_insertDescBy {α : Type} (key : α → ℚ) (c x : α) (l : List α) :
    x ∈ insertDescBy key c l ↔ x = c ∨ x ∈ l := by
  induction l with
  | nil => simp [insertDescBy]
  | cons d t ih =>
    unfold insertDescBy
    split
    · simp [or_comm, or_left_comm]
    · simp only [List.mem_cons, ih]
      tauto

lemma mem_sortDescBy {α : Type} (key : α → ℚ) (x : α) (l : List α) :
    x ∈ sortDescBy key l ↔ x ∈ l := by
  induction l with
  | nil => simp [sortDescBy]
  | cons c t ih =>
    unfold sortDescBy
    rw [mem_insertDescBy, ih]
    simp

lemma pyPure_eq {α : Type} (a : α) : (pure a : PyRes α) = Except.ok a := rfl

lemma rawProp_testId (e : Element) (a : String) :
    ∀ c ∈ testIdCandidate e a, RawCandProp c := by
  intro c hc
  unfold testIdCandidate at hc
  try dsimp only at hc
  split at hc
  · simp only [List.mem_singleton] at hc
    subst hc
    exact ⟨rfl, by norm_num, by norm_num, str_append_ne_right _ _ (by decide)⟩
  · simp at hc

lemma rawProp_roleName (role accName : Option String) :
    ∀ c ∈ roleNameCandidate role accName, RawCandProp c := by
  intro c hc
  unfold roleNameCandidate at hc
  try dsimp only at hc
  split at hc
  · simp only [List.mem_singleton] at hc
    subst hc
    exact ⟨rfl, by norm_num, by norm_num, str_append_ne_right _ _ (by decide)⟩
  · simp at hc

lemma rawProp_label (e : Element) (l : List SelectorCandidate)
    (h : labelCandidate e = Except.ok l) : ∀ c ∈ l, RawCandProp c := by
  unfold labelCandidate at h
  try dsimp only at h
  split at h
  · cases htag : e.tag_name with
    | none =>
      rw [show getTag e = Except.error () from by unfold getTag; rw [htag]] at h
      simp [pyBind_error] at h
    | some t =>
      rw [show getTag e = Except.ok t from by unfold getTag; rw [htag],
        pyBind_ok] at h
      try dsimp only at h
      split at h
      · rw [pyPure_eq] at h
        injection h with h2
        subst h2
        intro c hc
        simp only [List.mem_singleton] at hc
        subst hc
        exact ⟨rfl, by norm_num, by norm_num, str_append_ne_right _ _ (by decide)⟩
      · rw [pyPure_eq] at h
        injection h with h2
        subst h2
        simp
  · rw [pyPure_eq] at h
    injection h with h2
    subst h2
    simp

lemma rawProp_placeholder (e : Element) :
    ∀ c ∈ placeholderCandidate e, RawCandProp c := by
  intro c hc
  unfold placeholderCandidate at hc
  split at hc
  case _ p =>
    split at hc
    · simp only [List.mem_singleton] at hc
      subst hc
      exact ⟨rfl, by norm_num, by norm_num, str_append_ne_right _ _ (by decide)⟩
    · simp at hc
  case _ => simp at hc

lemma rawProp_altText (e : Element) (l : List SelectorCandidate)
    (h : altTextCandidate e = Except.ok l) : ∀ c ∈ l, RawCandProp c := by
  unfold altTextCandidate at h
  try dsimp only at h
  split at h
  · cases htag : e.tag_name with
    | none =>
      rw [show getTag e = Except.error () from by unfold getTag; rw [htag]] at h
      simp [pyBind_error] at h
    | some t =>
      rw [show getTag e = Except.ok t from by unfold getTag; rw [htag],
        pyBind_ok] at h
      try dsimp only at h
      split at h
      · rw [pyPure_eq] at h
        injection h with h2
        subst h2
        intro c hc
        simp only [List.mem_singleton] at hc
        subst hc
        exact ⟨rfl, by norm_num, by norm_num, str_append_ne_right _ _ (by decide)⟩
      · rw [pyPure_eq] at h
        injection h with h2
        subst h2
        simp
  · rw [pyPure_eq] at h
    injection h with h2
    subst h2
    simp

lemma rawProp_title (e : Element) :
    ∀ c ∈ titleCandidate e, RawCandProp c := by
  intro c hc
  unfold titleCandidate at hc
  split at hc
  case _ ti =>
    split at hc
    · simp only [List.mem_singleton] at hc
      subst hc
      exact ⟨rfl, by norm_num, by norm_num, str_append_ne_right _ _ (by decide)⟩
    · simp at hc
  case _ => simp at hc

lemma rawProp_text (e : Element) :
    ∀ c ∈ textCandidate e, RawCandProp c := by
  intro c hc
  unfold textCandidate at hc
  try dsimp only at hc
  split at hc
  · simp only [List.mem_singleton] at hc
    subst hc
    refine ⟨rfl, ?_, ?_, ?_⟩
    · split <;> norm_num
    · split <;> norm_num
    · split
      · exact str_append_ne_right _ _ (by decide)
      · exact str_append_ne_left _ _ (by decide)
  · simp at hc

lemma rawProp_cssId (e : Element) :
    ∀ c ∈ cssIdCandidate e, RawCandProp c := by
  intro c hc
  unfold cssIdCandidate at hc
  split at hc
  case _ i =>
    split at hc
    · simp only [List.mem_singleton] at hc
      subst hc
      exact ⟨rfl, by norm_num, by norm_num, str_append_ne_left _ _ (by decide)⟩
    · simp at hc
  case _ => simp at hc

lemma rawProp_cssClass (e : Element) :
    ∀ c ∈ cssClassCandidate e, RawCandProp c := by
  intro c hc
  unfold cssClassCandidate at hc
  try dsimp only at hc
  split at hc
  · simp only [List.mem_singleton] at hc
    subst hc
    exact ⟨rfl, by norm_num, by norm_num, str_append_ne_left _ _ (by decide)⟩
  · simp at hc

lemma rawProp_attr (e : Element) (a : String) (l : List SelectorCandidate)
    (h : attrCandidate e a = Except.ok l) : ∀ c ∈ l, RawCandProp c := by
  unfold attrCandidate at h
  split at h
  case _ v =>
    split at h
    · cases htag : e.tag_name with
      | none =>
        rw [show getTag e = Except.error () from by unfold getTag; rw [htag]] at h
        simp [pyBind_error] at h
      | some t =>
        rw [show getTag e = Except.ok t from by unfold getTag; rw [htag],
          pyBind_ok] at h
        try dsimp only at h
        rw [pyPure_eq] at h
        injection h with h2
        subst h2
        intro c hc
        simp only [List.mem_singleton] at hc
        subst hc
        exact ⟨rfl, by norm_num, by norm_num, str_append_ne_right _ _ (by decide)⟩
    · rw [pyPure_eq] at h
      injection h with h2
      subst h2
      simp
  case _ =>
    rw [pyPure_eq] at h
    injection h with h2
    subst h2
    simp

/-- Every raw candidate has the default stability 1, a score in [0, 1] and
a non-empty selector. -/
lemma generateRaw_all (e : Element) (raw : List SelectorCandidate)
    (h : generateRawCandidates e = Except.ok raw) :
    ∀ c ∈ raw, RawCandProp c := by
  unfold generateRawCandidates at h
  cases hrole : detectRole e with
  | error u => rw [hrole] at h; simp [pyBind_error] at h
  | ok role =>
    rw [hrole, pyBind_ok] at h
    cases han : getAccessibleName e with
    | error u => rw [han] at h; simp [pyBind_error] at h
    | ok accName =>
      rw [han, pyBind_ok] at h
      cases h3 : labelCandidate e with
      | error u => rw [h3] at h; simp [pyBind_error] at h
      | ok c3 =>
        rw [h3, pyBind_ok] at h
        cases h5 : altTextCandidate e with
        | error u => rw [h5] at h; simp [pyBind_error] at h
        | ok c5 =>
          rw [h5, pyBind_ok] at h
          cases ha1 : attrCandidate e "name" with
          | error u => rw [ha1] at h; simp [pyBind_error] at h
          | ok a1 =>
            rw [ha1, pyBind_ok] at h
            cases ha2 : attrCandidate e "type" with
            | error u => rw [ha2] at h; simp [pyBind_error] at h
            | ok a2 =>
              rw [ha2, pyBind_ok] at h
              cases ha3 : attrCandidate e "href" with
              | error u => rw [ha3] at h; simp [pyMap_error, pyBind_error] at h
              | ok a3 =>
                rw [ha3] at h
                simp only [pyBind_ok, pyPure_eq] at h
                injection h with h2
                subst h2
                intro c hc
                simp only [List.mem_append] at hc
                rcases hc with
                  (((((((((((((((hc | hc) | hc) | hc) | hc) | hc) | hc) | hc) |
                    hc) | hc) | hc) | hc) | hc) | hc) | hc) | hc)
                · exact rawProp_testId e "data-testid" c hc
                · exact rawProp_testId e "data-test-id" c hc
                · exact rawProp_testId e "data-test" c hc
                · exact rawProp_testId e "data-cy" c hc
                · exact rawProp_testId e "data-qa" c hc
                · exact rawProp_roleName role accName c hc
                · exact rawProp_label e c3 h3 c hc
                · exact rawProp_placeholder e c hc
                · exact rawProp_altText e c5 h5 c hc
                · exact rawProp_title e c hc
                · exact rawProp_text e c hc
                · exact rawProp_cssId e c hc
                · exact rawProp_cssClass e c hc
                · exact rawProp_attr e "name" a1 ha1 c hc
                · exact rawProp_attr e "type" a2 ha2 c hc
                · exact rawProp_attr e "href" a3 ha3 c hc

/-- C6 (amended): every raw candidate carries the dataclass default
`stability_score = 1.0` (the claimed 0.5 default never appears); the
history blend leaves a candidate untouched when no entry exists for the
generator-hash/selector pair, and otherwise sets
`stability_score = success_rate` and `score = 0.7·base + 0.3·success_rate`. -/
theorem C6_blend_and_default :
    (∀ (e : Element) (raw : List SelectorCandidate),
      generateRawCandidates e = Except.ok raw →
      ∀ c ∈ raw, c.stability_score = 1) ∧
    (∀ (hist : SelectorHistory) (ehash : String) (c : SelectorCandidate),
      (aget hist ehash).bind (fun h => aget h c.selector) = none →
      blendOne hist ehash c = c) ∧
    (∀ (hist : SelectorHistory) (ehash : String) (c : SelectorCandidate)
      (entry : HistEntry),
      (aget hist ehash).bind (fun h => aget h c.selector) = some entry →
      blendOne hist ehash c =
        { c with stability_score := entry.success_rate,
                 score := c.score * 0.7 + entry.success_rate * 0.3 }) := by
  refine ⟨?_, ?_, ?_⟩
  · intro e raw h c hc
    exact (generateRaw_all e raw h c hc).1
  · intro hist ehash c h
    unfold blendOne
    cases hh : aget hist ehash with
    | none => rfl
    | some history =>
      rw [hh] at h
      simp only [Option.some_bind] at h
      dsimp only
      rw [h]
  · intro hist ehash c entry h
    unfold blendOne
    cases hh : aget hist ehash with
    | none => rw [hh] at h; simp at h
    | some history =>
      rw [hh] at h
      simp only [Option.some_bind] at h
      dsimp only
      rw [h]

/-- C6 witness: blending a concrete candidate with a history entry of
success rate 1/2. -/
theorem C6_blend_witness :
    blendOne c6hist "k" c6cand
      = { c6cand with stability_score := 1/2,
                      score := c6cand.score * 0.7 + 1/2 * 0.3 } :=
  C6_blend_and_default.2.2 c6hist "k" c6cand ⟨4, 2, 1/2⟩ (by with_unfolding_all rfl)

/-! ### Totality of generation when `tag_name` is present -/

lemma detectRole_ok (e : Element) (t : String) (htag : e.tag_name = some t) :
    ∃ r, detectRole e = Except.ok r := by
  unfold detectRole
  dsimp only
  by_cases h : truthy (aget e.attributes "role") = true
  · rw [if_pos h]
    exact ⟨_, rfl⟩
  · rw [if_neg h,
      show getTag e = Except.ok t from by unfold getTag; rw [htag]]
    simp only [pyBind_ok]
    by_cases hi : (t == "input") = true
    · rw [if_pos hi]
      exact ⟨_, rfl⟩
    · rw [if_neg hi]
      exact ⟨_, rfl⟩

lemma getAccessibleName_ok (e : Element) (t : String)
    (htag : e.tag_name = some t) :
    ∃ r, getAccessibleName e = Except.ok r := by
  unfold getAccessibleName
  dsimp only
  by_cases h1 : truthy (aget e.attributes "aria-label") = true
  · rw [if_pos h1]
    exact ⟨_, rfl⟩
  · rw [if_neg h1]
    by_cases h2 : (truthyS (pyStrip (e.text.getD "")) &&
        decide ((pyStrip (e.text.getD "")).length < 50)) = true
    · rw [if_pos h2]
      exact ⟨_, rfl⟩
    · rw [if_neg h2]
      by_cases h3 : truthy (aget e.attributes "title") = true
      · rw [if_pos h3]
        exact ⟨_, rfl⟩
      · rw [if_neg h3]
        by_cases h4 : truthy (aget e.attributes "value") = true
        · rw [if_pos h4,
            show getTag e = Except.ok t from by unfold getTag; rw [htag]]
          simp only [pyBind_ok]
          by_cases hi : (t == "input") = true
          · rw [if_pos hi]
            exact ⟨_, rfl⟩
          · rw [if_neg hi]
            exact ⟨_, rfl⟩
        · rw [if_neg h4]
          exact ⟨_, rfl⟩

lemma labelCandidate_ok (e : Element) (t : String)
    (htag : e.tag_name = some t) :
    ∃ l, labelCandidate e = Except.ok l := by
  unfold labelCandidate
  dsimp only
  by_cases h : truthy (orTruthy e.label e.ariaLabelTop) = true
  · rw [if_pos h,
      show getTag e = Except.ok t from by unfold getTag; rw [htag]]
    simp only [pyBind_ok]
    by_cases hi : (["input", "textarea", "select"].contains t) = true
    · rw [if_pos hi]
      exact ⟨_, rfl⟩
    · rw [if_neg hi]
      exact ⟨_, rfl⟩
  · rw [if_neg h]
    exact ⟨_, rfl⟩

lemma altTextCandidate_ok (e : Element) (t : String)
    (htag : e.tag_name = some t) :
    ∃ l, altTextCandidate e = Except.ok l := by
  unfold altTextCandidate
  dsimp only
  by_cases h : truthy (aget e.attributes "alt") = true
  · rw [if_pos h,
      show getTag e = Except.ok t from by unfold getTag; rw [htag]]
    simp only [pyBind_ok]
    by_cases hi : (t == "img") = true
    · rw [if_pos hi]
      exact ⟨_, rfl⟩
    · rw [if_neg hi]
      exact ⟨_, rfl⟩
  · rw [if_neg h]
    exact ⟨_, rfl⟩

lemma attrCandidate_ok (e : Element) (a : String) (t : String)
    (htag : e.tag_name = some t) :
    ∃ l, attrCandidate e a = Except.ok l := by
  unfold attrCandidate
  cases hv : aget e.attributes a with
  | none => exact ⟨_, rfl⟩
  | some v =>
    dsimp only
    by_cases hw : truthyS v = true
    · rw [if_pos hw,
        show getTag e = Except.ok t from by unfold getTag; rw [htag]]
      simp only [pyBind_ok]
      exact ⟨_, rfl⟩
    · rw [if_neg hw]
      exact ⟨_, rfl⟩

lemma generateRaw_ok (e : Element) (t : String) (htag : e.tag_name = some t) :
    ∃ raw, generateRawCandidates e = Except.ok raw := by
  obtain ⟨role, hrole⟩ := detectRole_ok e t htag
  obtain ⟨accName, han⟩ := getAccessibleName_ok e t htag
  obtain ⟨c3, h3⟩ := labelCandidate_ok e t htag
  obtain ⟨c5, h5⟩ := altTextCandidate_ok e t htag
  obtain ⟨a1, ha1⟩ := attrCandidate_ok e "name" t htag
  obtain ⟨a2, ha2⟩ := attrCandidate_ok e "type" t htag
  obtain ⟨a3, ha3⟩ := attrCandidate_ok e "href" t htag
  cases hg : generateRawCandidates e with
  | ok raw => exact ⟨raw, rfl⟩
  | error u =>
    exfalso
    unfold generateRawCandidates at hg
    rw [hrole, pyBind_ok] at hg
    rw [han, pyBind_ok] at hg
    rw [h3, pyBind_ok] at hg
    rw [h5, pyBind_ok] at hg
    rw [ha1, pyBind_ok] at hg
    rw [ha2, pyBind_ok] at hg
    rw [ha3] at hg
    simp only [pyBind_ok, pyPure_eq] at hg
    cases hg

lemma applyUniqueness_none (l : List SelectorCandidate) :
    applyUniqueness none l = l := rfl

lemma generate_selectors_eq (hist : SelectorHistory) (e : Element)
    (raw : List SelectorCandidate) (h : generateRawCandidates e = Except.ok raw) :
    generate_selectors hist e none
      = Except.ok (sortByScoreDesc
          (raw.map (blendOne hist (generatorElementHash e)))) := by
  unfold generate_selectors
  rw [h]
  simp only [pyBind_ok, pyMap_ok, pyPure_eq, applyUniqueness_none]

/-! ### Membership facts for the decision branches -/

lemma pickBest_mem {α : Type} (better : α → α → Bool) (l : List α) (r : α)
    (h : pickBest better l = some r) : r ∈ l := by
  induction l generalizing r with
  | nil => simp [pickBest] at h
  | cons a t ih =>
    unfold pickBest at h
    cases hp : pickBest better t with
    | none =>
      rw [hp] at h
      injection h with h'
      subst h'
      exact List.mem_cons_self a t
    | some b =>
      rw [hp] at h
      dsimp only at h
      by_cases hbb : better b a = true
      · rw [if_pos hbb] at h
        injection h with h'
        subst h'
        exact List.mem_cons_of_mem _ (ih _ hp)
      · rw [if_neg hbb] at h
        injection h with h'
        subst h'
        exact List.mem_cons_self _ _

lemma find_correction_mem (t : List CorrectionRow) (s u : String)
    (c : CorrectionHit) (h : find_correction_for_step t s u = some c) :
    ∃ row ∈ t, c = ⟨row.corrected_selector, row.correction_text,
      row.times_applied⟩ := by
  unfold find_correction_for_step at h
  dsimp only at h
  cases h1 : pickBest
      (fun a b => decide (b.times_applied < a.times_applied) ||
        (a.times_applied == b.times_applied && decide (b.last_used < a.last_used)))
      (t.filter (fun r => r.original_step == s)) with
  | some r =>
    rw [h1] at h
    simp only [Option.map_some', Option.some.injEq] at h
    exact ⟨r, List.mem_of_mem_filter (pickBest_mem _ _ _ h1), h.symm⟩
  | none =>
    rw [h1] at h
    cases h2 : pickBest (fun a b => decide (b.times_applied < a.times_applied))
        (t.filter (fun r => sqlLikeContains r.original_step (pyTake s 30))) with
    | some r =>
      rw [h2] at h
      simp only [Option.map_some', Option.some.injEq] at h
      exact ⟨r, List.mem_of_mem_filter (pickBest_mem _ _ _ h2), h.symm⟩
    | none =>
      rw [h2] at h
      simp at h

lemma get_best_mem (stats : List StatsRow) (eh sel : String) (rate : ℚ)
    (hb : get_best_selector_for_element stats eh = some (sel, rate)) :
    ∃ r ∈ stats, r.selector = sel ∧ r.success_rate = rate := by
  unfold get_best_selector_for_element at hb
  dsimp only at hb
  cases hp : pickBest
      (fun a b => decide (b.success_rate < a.success_rate) ||
        (a.success_rate == b.success_rate && decide (b.total_attempts < a.total_attempts)))
      (stats.filter (fun r => r.element_hash == eh && decide (3 ≤ r.total_attempts))) with
  | none => rw [hp] at hb; simp at hb
  | some r =>
    rw [hp] at hb
    simp only [Option.map_some', Option.some.injEq, Prod.mk.injEq] at hb
    exact ⟨r, List.mem_of_mem_filter (pickBest_mem _ _ _ hp), hb.1, hb.2⟩

lemma find_similar_mem (embed : String → List ℚ)
    (cosSim : List ℚ → List ℚ → ℚ) (idx : SemIndex) (e : Element)
    (k : Nat) (minSim : ℚ) (x : SimilarElement)
    (hx : x ∈ find_similar embed cosSim idx e k minSim) :
    ∃ row ∈ idx.rows, x.selector = row.selector ∧
      minSim ≤ x.similarity_score ∧
      x.similarity_score = cosSim (embed (buildElementDescription e)) row.embedding ∧
      0 ≤ x.success_rate ∧ x.success_rate ≤ 1 := by
  unfold find_similar at hx
  dsimp only at hx
  have hx' := (mem_sortDescBy _ _ _).mp (List.mem_of_mem_take hx)
  obtain ⟨row, hrow, hf⟩ := List.mem_filterMap.mp hx'
  refine ⟨row, hrow, ?_⟩
  try dsimp only at hf
  split at hf
  · simp only [Option.some.injEq] at hf
    subst hf
    refine ⟨rfl, by assumption, rfl, ?_, ?_⟩
    · split
      · positivity
      · norm_num
    · split
      case _ htot =>
        apply div_le_one_of_le₀
        · exact_mod_cast Nat.le_add_right _ _
        · positivity
      · norm_num
  · cases hf

lemma blendOne_selector (hist : SelectorHistory) (k : String)
    (c : SelectorCandidate) : (blendOne hist k c).selector = c.selector := by
  unfold blendOne
  cases aget hist k with
  | none => rfl
  | some history =>
    dsimp only
    cases aget history c.selector with
    | none => rfl
    | some entry => rfl

lemma blendOne_bounds (hist : SelectorHistory) (k : String)
    (c : SelectorCandidate)
    (hHist : ∀ kv ∈ hist, ∀ se ∈ kv.2,
      0 ≤ se.2.success_rate ∧ se.2.success_rate ≤ 1)
    (hc : 0 ≤ c.score ∧ c.score ≤ 1) :
    0 ≤ (blendOne hist k c).score ∧ (blendOne hist k c).score ≤ 1 := by
  unfold blendOne
  cases hh : aget hist k with
  | none => exact hc
  | some history =>
    dsimp only
    cases hsel : aget history c.selector with
    | none => exact hc
    | some entry =>
      have h1 := hHist (k, history) (aget_mem hh) (c.selector, entry)
        (aget_mem hsel)
      dsimp only at h1 ⊢
      constructor <;> nlinarith [hc.1, hc.2, h1.1, h1.2]

lemma foldl_best_aux {α : Type} (key : α → ℚ) (l : List α)
    (acc : Option α × ℚ) :
    l.foldl (fun acc s => if acc.2 < key s then (some s, key s) else acc) acc
        = acc ∨
    ∃ s ∈ l,
      l.foldl (fun acc s => if acc.2 < key s then (some s, key s) else acc) acc
          = (some s, key s) ∧ acc.2 < key s := by
  induction l generalizing acc with
  | nil => left; rfl
  | cons x t ih =>
    simp only [List.foldl_cons]
    by_cases hx : acc.2 < key x
    · rw [if_pos hx]
      rcases ih (some x, key x) with heq | ⟨s, hs, heq, hlt⟩
      · right
        exact ⟨x, List.mem_cons_self _ _, heq, hx⟩
      · right
        refine ⟨s, List.mem_cons_of_mem _ hs, heq, lt_trans hx ?_⟩
        exact hlt
    · rw [if_neg hx]
      rcases ih acc with heq | ⟨s, hs, heq, hlt⟩
      · left; exact heq
      · right; exact ⟨s, List.mem_cons_of_mem _ hs, heq, hlt⟩

lemma foldl_best_some {α : Type} (key : α → ℚ) (l : List α) (s : α) (sc : ℚ)
    (h : l.foldl (fun acc x => if acc.2 < key x then (some x, key x) else acc)
        ((none : Option α), (0 : ℚ)) = (some s, sc)) :
    s ∈ l ∧ sc = key s ∧ 0 < sc := by
  rcases foldl_best_aux key l (none, 0) with heq | ⟨s', hs', heq, hlt⟩
  · rw [h] at heq
    simp at heq
  · rw [h] at heq
    rw [Prod.ext_iff] at heq
    obtain ⟨h1, h2⟩ := heq
    simp only [Option.some.injEq] at h1
    subst h1
    dsimp only at h2
    subst h2
    exact ⟨hs', rfl, hlt⟩

/-- Steps 3-6 of `decide_selector` always produce a usable decision when
the element carries a non-empty tag name, the similarity function is
bounded by 1 (Cauchy-Schwarz for the real cosine), the threshold is
non-negative, stored selectors are non-empty, recorded success rates lie
in [0, 1], and every already-collected alternative is usable. -/
lemma decideSelectorTail_ok (cfg : LearningConfig) (embed : String → List ℚ)
    (cosSim : List ℚ → List ℚ → ℚ) (st : LLState) (e : Element)
    (alts : List (String × ℚ)) (t : String)
    (htag : e.tag_name = some t) (htne : t ≠ "")
    (hCos : ∀ q v, cosSim q v ≤ 1)
    (hThr : 0 ≤ cfg.similarity_threshold)
    (hSem : ∀ r ∈ st.semIndex.rows, r.selector ≠ "")
    (hHist : ∀ kv ∈ st.genHistory, ∀ se ∈ kv.2,
      0 ≤ se.2.success_rate ∧ se.2.success_rate ≤ 1)
    (hAlts : ∀ p ∈ alts, p.1 ≠ "" ∧ 0 ≤ p.2 ∧ p.2 ≤ 1) :
    DecisionOK (decideSelectorTail cfg embed cosSim st e alts) := by
  obtain ⟨raw, hraw⟩ := generateRaw_ok e t htag
  have hgen := generate_selectors_eq st.genHistory e raw hraw
  unfold decideSelectorTail
  rw [hgen]
  dsimp only
  cases hlist : sortByScoreDesc
      (raw.map (blendOne st.genHistory (generatorElementHash e))) with
  | nil =>
    dsimp only
    cases hpb : pickBest (fun a b => decide (b.2 < a.2))
        (alts ++ (find_similar embed cosSim st.semIndex e 3
          cfg.similarity_threshold).filterMap (fun s =>
            if cfg.success_rate_threshold ≤ s.success_rate then
              some (s.selector, s.similarity_score * s.success_rate)
            else none)) with
    | some best_alt =>
      dsimp only [DecisionOK]
      have hmem := pickBest_mem _ _ _ hpb
      rcases List.mem_append.mp hmem with hmem | hmem
      · exact hAlts _ hmem
      · obtain ⟨sElem, hsim, hf⟩ := List.mem_filterMap.mp hmem
        split at hf
        · simp only [Option.some.injEq] at hf
          subst hf
          obtain ⟨row, hrow, hrsel, hminsim, _, hr0, hr1⟩ :=
            find_similar_mem embed cosSim st.semIndex e 3
              cfg.similarity_threshold sElem hsim
          have hsim1 : sElem.similarity_score ≤ 1 := by
            rw [show sElem.similarity_score
                = cosSim (embed (buildElementDescription e)) row.embedding
              from by assumption]
            exact hCos _ _
          have hsim0 : 0 ≤ sElem.similarity_score := le_trans hThr hminsim
          refine ⟨?_, ?_, ?_⟩
          · dsimp only
            rw [hrsel]
            exact hSem row hrow
          · dsimp only
            nlinarith
          · dsimp only
            nlinarith
        · cases hf
    | none =>
      rw [htag]
      dsimp only [DecisionOK]
      by_cases htxt : truthyS (pyTake
          (match e.text with
            | some t => t
            | none => e.text_content.getD "") 30) = true
      · rw [if_pos htxt]
        exact ⟨str_append_ne_right _ _ (by decide), by norm_num, by norm_num⟩
      · rw [if_neg htxt]
        exact ⟨htne, by norm_num, by norm_num⟩
  | cons best rest =>
    dsimp only
    have hbmem : best ∈ sortByScoreDesc
        (raw.map (blendOne st.genHistory (generatorElementHash e))) := by
      rw [hlist]
      exact List.mem_cons_self _ _
    rw [sortByScoreDesc, mem_sortDescBy] at hbmem
    obtain ⟨c₀, hc₀, hbc⟩ := List.mem_map.mp hbmem
    have hprop := generateRaw_all e raw hraw c₀ hc₀
    have hsel : best.selector = c₀.selector := by
      rw [← hbc]
      exact blendOne_selector _ _ _
    have hscore : 0 ≤ best.score ∧ best.score ≤ 1 := by
      rw [← hbc]
      exact blendOne_bounds _ _ _ hHist ⟨hprop.2.1, hprop.2.2.1⟩
    have hbsel : best.selector ≠ "" := by
      rw [hsel]
      exact hprop.2.2.2
    rcases hfold : (find_similar embed cosSim st.semIndex e 3
        cfg.similarity_threshold).foldl
        (fun acc s =>
          if acc.2 < s.similarity_score * 0.6 + s.success_rate * 0.4 then
            (some s, s.similarity_score * 0.6 + s.success_rate * 0.4)
          else acc) (none, 0) with ⟨os, sc⟩
    cases os with
    | none =>
      rw [hfold]
      dsimp only [DecisionOK, generatedDecision]
      exact ⟨hbsel, hscore.1, hscore.2⟩
    | some bs =>
      rw [hfold]
      dsimp only
      obtain ⟨hbsmem, hsceq, hscpos⟩ := foldl_best_some
        (fun s => s.similarity_score * 0.6 + s.success_rate * 0.4) _ bs sc hfold
      obtain ⟨row, hrow, hrsel, hminsim, hsimeq, hr0, hr1⟩ :=
        find_similar_mem embed cosSim st.semIndex e 3
          cfg.similarity_threshold bs hbsmem
      by_cases hlt : best.score < sc
      · rw [if_pos hlt]
        dsimp only [DecisionOK]
        have hsim1 : bs.similarity_score ≤ 1 := by
          rw [hsimeq]
          exact hCos _ _
        refine ⟨?_, le_of_lt hscpos, ?_⟩
        · rw [hrsel]
          exact hSem row hrow
        · rw [hsceq]
          nlinarith
      · rw [if_neg hlt]
        dsimp only [DecisionOK, generatedDecision]
        exact ⟨hbsel, hscore.1, hscore.2⟩

/-- C10 (amended): for every element whose `tag_name` entry is present and
non-empty, and every state whose stored selectors are non-empty and whose
recorded rates are within [0, 1] (all invariants the recording paths
maintain), `decide_selector` returns normally — never a `KeyError` — with
a non-empty selector and a confidence in [0, 1].  The original claim fails
only for an element whose `tag_name` value is the empty string (see the
counterexample), where the ultimate fallback selector is empty. -/
theorem C10_decide_selector_safe (cfg : LearningConfig)
    (embed : String → List ℚ) (cosSim : List ℚ → List ℚ → ℚ)
    (st : LLState) (e : Element) (page_url step_text t : String)
    (htag : e.tag_name = some t) (htne : t ≠ "")
    (hCos : ∀ q v, cosSim q v ≤ 1)
    (hThr : 0 ≤ cfg.similarity_threshold)
    (hStats : ∀ r ∈ st.store.selector_stats,
      0 ≤ r.success_rate ∧ r.success_rate ≤ 1 ∧ r.selector ≠ "")
    (hCorr : ∀ r ∈ st.store.correction_mappings, r.corrected_selector ≠ "")
    (hSem : ∀ r ∈ st.semIndex.rows, r.selector ≠ "")
    (hHist : ∀ kv ∈ st.genHistory, ∀ se ∈ kv.2,
      0 ≤ se.2.success_rate ∧ se.2.success_rate ≤ 1) :
    DecisionOK (decide_selector cfg embed cosSim st e page_url step_text) := by
  have hHistPart : ∀ sel rate,
      get_best_selector_for_element st.store.selector_stats
          (compute_element_hash e) = some (sel, rate) →
      sel ≠ "" ∧ 0 ≤ rate ∧ rate ≤ 1 := by
    intro sel rate hb
    obtain ⟨r, hr, hrs, hrr⟩ := get_best_mem _ _ sel rate hb
    obtain ⟨h0, h1, hne⟩ := hStats r hr
    exact ⟨hrs ▸ hne, hrr ▸ h0, hrr ▸ h1⟩
  have tailCase : ∀ alts : List (String × ℚ),
      (∀ p ∈ alts, p.1 ≠ "" ∧ 0 ≤ p.2 ∧ p.2 ≤ 1) →
      DecisionOK (decideSelectorTail cfg embed cosSim st e alts) :=
    fun alts hAlts => decideSelectorTail_ok cfg embed cosSim st e alts t
      htag htne hCos hThr hSem hHist hAlts
  unfold decide_selector
  dsimp only
  cases hc : find_correction_for_step st.store.correction_mappings
      step_text page_url with
  | some c =>
    dsimp only
    by_cases h2 : 2 ≤ c.times_used
    · rw [if_pos h2]
      dsimp only [DecisionOK]
      obtain ⟨row, hrow, hceq⟩ := find_correction_mem _ _ _ c hc
      refine ⟨?_, by norm_num, by norm_num⟩
      rw [hceq]
      exact hCorr row hrow
    · rw [if_neg h2]
      dsimp only
      cases hb : get_best_selector_for_element st.store.selector_stats
          (compute_element_hash e) with
      | some p =>
        obtain ⟨sel, rate⟩ := p
        dsimp only
        by_cases hth : cfg.success_rate_threshold ≤ rate
        · rw [if_pos hth]
          dsimp only [DecisionOK]
          obtain ⟨hne, h0, h1⟩ := hHistPart sel rate hb
          exact ⟨hne, h0, h1⟩
        · rw [if_neg hth]
          refine tailCase _ ?_
          intro p hp
          simp only [List.mem_singleton] at hp
          subst hp
          exact hHistPart sel rate hb
      | none =>
        exact tailCase [] (by simp)
  | none =>
    dsimp only
    cases hb : get_best_selector_for_element st.store.selector_stats
        (compute_element_hash e) with
    | some p =>
      obtain ⟨sel, rate⟩ := p
      dsimp only
      by_cases hth : cfg.success_rate_threshold ≤ rate
      · rw [if_pos hth]
        dsimp only [DecisionOK]
        obtain ⟨hne, h0, h1⟩ := hHistPart sel rate hb
        exact ⟨hne, h0, h1⟩
      · rw [if_neg hth]
        refine tailCase _ ?_
        intro p hp
        simp only [List.mem_singleton] at hp
        subst hp
        exact hHistPart sel rate hb
    | none =>
      exact tailCase [] (by simp)


/-! ### C1 and C9: the recording paths -/

/-- Writing `d[k] = v` then reading `d[k]` yields `v`. -/
lemma aget_aset_self {α : Type} (l : List (String × α)) (k : String) (v : α) :
    aget (aset l k v) k = some v := by
  induction l with
  | nil => simp [aset, aget, List.find?]
  | cons p t ih =>
    by_cases h : (p.1 == k) = true
    · simp [aset, h, aget, List.find?]
    · unfold aset
      rw [if_neg h]
      unfold aget at ih ⊢
      rw [List.find?_cons_of_neg _ (by exact h)]
      exact ih

/-- One statistics upsert bumps the key's attempt counter and adds the
success flag to its success counter, both on a fresh and on an existing
row. -/
lemma statsCounts_update (eh sel strat : String) (success : Bool) (d : Nat)
    (now : String) (t : List StatsRow) :
    statsCounts (getStats (updateSelectorStats eh sel strat success d now t) eh sel)
      = ((statsCounts (getStats t eh sel)).1 + 1,
         (statsCounts (getStats t eh sel)).2 + (if success then 1 else 0)) := by
  induction t with
  | nil =>
    cases success <;>
      simp [updateSelectorStats, getStats, statsCounts, List.find?]
  | cons r t ih =>
    by_cases hm : (r.element_hash == eh && r.selector == sel) = true
    · unfold updateSelectorStats
      rw [if_pos hm]
      unfold getStats
      dsimp only
      rw [List.find?_cons_of_pos _ (by exact hm),
          List.find?_cons_of_pos _ (by exact hm)]
      cases success <;> rfl
    · unfold updateSelectorStats
      rw [if_neg hm]
      unfold getStats at ih ⊢
      rw [List.find?_cons_of_neg _ (by exact hm),
          List.find?_cons_of_neg _ (by exact hm)]
      exact ih

/-- One generator-history update bumps the key's attempt counter and adds
the success flag to its success counter. -/
lemma histCounts_update (hist : SelectorHistory) (eh sel : String)
    (success : Bool) :
    histCounts (update_history hist eh sel success) eh sel
      = ((histCounts hist eh sel).1 + 1,
         (histCounts hist eh sel).2 + (if success then 1 else 0)) := by
  unfold histCounts update_history
  dsimp only
  rw [aget_aset_self]
  simp only [Option.getD_some]
  rw [aget_aset_self]
  simp only [Option.getD_some]

/-- C9: recording an interaction whose outcome is `corrected` updates the
three learning stores divergently.  The ledger's selector statistic counts
it as a failure (`outcome == SUCCESS` is false: attempts incremented,
successes unchanged), while the similarity index's success counter and the
in-memory selector-generator history both count it as a success
(`outcome == SUCCESS or outcome == CORRECTED` is true). -/
theorem C9_corrected_outcome_divergence
    (urlPat : String → String) (embed : String → List ℚ)
    (now rowId sid : String) (st : LLState) (e : Element)
    (page_url page_title selector strategy step_text action_type : String)
    (hsess : st.currentSession = some sid) :
    C9Div urlPat embed now rowId st e page_url page_title selector strategy
      step_text action_type := by
  unfold C9Div llRecordInteraction
  rw [hsess]
  dsimp only
  refine ⟨?_, ?_, ?_⟩
  · dsimp only [record_interaction]
    rw [statsCounts_update]
    simp
  · rw [histCounts_update]
    rfl
  · rfl

/-- The divergence realized on a concrete session state: the C9 theorem
applied to `sessionState` recording a corrected Login-button click. -/
theorem C9_divergence_witness :
    sessionState.currentSession = some "s1" ∧
    C9Div id embedNull "2025-01-02T00:00:00" "i9" sessionState
      loginButtonElement "https://ex.com/login" "Ex" "#login" "css"
      "Click Login" "click" :=
  ⟨rfl, C9_corrected_outcome_divergence id embedNull "2025-01-02T00:00:00"
    "i9" "s1" sessionState loginButtonElement "https://ex.com/login" "Ex"
    "#login" "css" "Click Login" "click" rfl⟩

/-- C1: the correction short-circuit is dead code.  After the *same* user
correction is recorded twice for the step "Click Login" (state `c1state`),
the table holds two separate rows each with `times_applied = 1` — the
`ON CONFLICT` arm of `_save_correction_mapping` can never fire because
`correction_mappings` has no uniqueness constraint — so
`find_correction_for_step` reports `times_used = 1`, the `>= 2` gate
fails, and `decide_selector` ignores the stored correction `#signin`,
returning a freshly generated selector with source "generated" instead of
the claimed corrected selector with confidence 0.95 and source
"learned_correction". -/
theorem C1_dead_upsert_no_short_circuit :
    c1state.store.correction_mappings.map (fun r => r.times_applied) = [1, 1] ∧
    find_correction_for_step c1state.store.correction_mappings "Click Login"
        "https://ex.com/login"
      = some { selector := "#signin", correction := "click the Sign In button",
               times_used := 1 } ∧
    decide_selector {} embedNull cosSimNull c1state loginButtonElement
        "https://ex.com/login" "Click Login"
      = Except.ok { selector := "[data-testid=\"login-btn\"]",
                    strategy := "test_id", confidence := 0.95,
                    source := "generated",
                    alternatives := [("button[name=\"Login\"]", 0.9),
                                     ("text=\"Login\"", 0.75)] } :=
  ⟨by with_unfolding_all rfl, by with_unfolding_all rfl,
   by with_unfolding_all rfl⟩

/-! ### C10: the remaining pieces -/

/-- C10 counterexample: an element that *does* carry a `tag_name` key, but
with the empty string as its value, drives `decide_selector` (on a fresh
state) into the text fallback with an *empty* selector — the returned
decision does not carry a non-empty selector as claimed. -/
theorem C10_counterexample_empty_tag_fallback :
    decide_selector {} embedNull cosSimNull LLState.empty
        { tag_name := some "" } "https://x.test/" "click"
      = Except.ok { selector := "", strategy := "text_fallback",
                    confidence := 0.3, source := "fallback",
                    alternatives := [] } := by
  with_unfolding_all rfl

/-- The C10 safety theorem applied to a concrete bare button element and
the empty learning state. -/
theorem C10_decide_selector_witness :
    DecisionOK (decide_selector {} embedNull cosSimNull LLState.empty
      { tag_name := some "button" } "https://x.test/" "click") :=
  C10_decide_selector_safe {} embedNull cosSimNull LLState.empty
    { tag_name := some "button" } "https://x.test/" "click" "button" rfl
    (by decide) (fun _ _ => zero_le_one) (by norm_num)
    (by intro r hr; simp [LLState.empty, Store.empty] at hr)
    (by intro r hr; simp [LLState.empty, Store.empty] at hr)
    (by intro r hr; simp [LLState.empty, SemIndex.empty] at hr)
    (by intro kv hkv; simp [LLState.empty] at hkv)

end Vero

